/-
  Verification of the Jira→GitLab synchronization core (src/app2.py).

  Shallow embedding: the pure helpers of app2.py become Lean functions over
  `String`/`List`; the sqlite-backed store becomes an explicit `Store` value;
  the outbound GitLab HTTP calls become an oracle (`GitlabEnv`) plus a trace
  of issued calls; `jira_webhook` becomes a pure function from
  (config, oracle, clock, store, credentials, payload) to
  (HTTP outcome, new store, call trace).

  Python-specific semantics are modelled explicitly:
  - `x or y` on strings/optional strings (falsy = None or "") → `pyOrOpt`/`pyOrS`;
  - `str.strip()` → `pyStrip` (whitespace set of CPython's `str.strip`);
  - `str.startswith` → `pyStartsWith`; `needle in hay` → `pyIn`;
  - a JSON dict that may be absent/empty → `Option` of a structure
    (an empty dict is falsy in Python, so `payload.get("x") or {}` conflates
    "absent" and "empty dict"; both are modelled as `none`);
  - a `labels` field that may be absent or not list-shaped → `LabelsField`.
-/
import Mathlib

set_option maxHeartbeats 1000000

/-! ## Python string primitives -/

/-- CPython whitespace characters stripped by `str.strip()`. -/
def pyIsSpace (c : Char) : Bool :=
  c = ' ' || c = '\t' || c = '\n' || c = '\r' || c = '\x0b' || c = '\x0c'

def lstripL (l : List Char) : List Char := l.dropWhile pyIsSpace

def rstripL (l : List Char) : List Char := (l.reverse.dropWhile pyIsSpace).reverse

def stripL (l : List Char) : List Char := rstripL (lstripL l)

/-- Python `s.strip()`. -/
def pyStrip (s : String) : String := ⟨stripL s.data⟩

/-- `isPre pat l` : `pat` is a prefix of `l` (Python `str.startswith`). -/
def isPre (pat l : List Char) : Bool :=
  match pat, l with
  | [], _ => true
  | _ :: _, [] => false
  | a :: t, b :: u => a = b && isPre t u

/-- Python `s.startswith(pat)`. -/
def pyStartsWith (s pat : String) : Bool := isPre pat.data s.data

/-- `containsSub hay needle` : `needle` occurs contiguously in `hay`. -/
def containsSub (hay needle : List Char) : Bool :=
  isPre needle hay ||
    match hay with
    | [] => false
    | _ :: t => containsSub t needle

/-- Python `needle in hay` on strings. -/
def pyIn (needle hay : String) : Bool := containsSub hay.data needle.data

/-- Python `x or y` where `x : Optional[str]` (falsy = `None` or `""`). -/
def pyOrOpt (x y : Option String) : Option String :=
  match x with
  | none => y
  | some s => if s = "" then y else some s

/-- Python `x or y` where `x : Optional[str]` and the result is forced to `str`. -/
def pyOrD (x : Option String) (y : String) : String :=
  match x with
  | none => y
  | some s => if s = "" then y else s

/-- Python `x or y` on two strings. -/
def pyOrS (x y : String) : String := if x = "" then y else x

/-- Python truthiness of an `Optional[str]`: `if not jira_key` takes the
`none` branch exactly when the value is `None` or `""`. -/
def pyOptKey (x : Option String) : Option String :=
  match x with
  | none => none
  | some s => if s = "" then none else some s

/-! ## Configuration (module-level env-derived constants of app2.py) -/

structure Config where
  GITLAB_BASE_URL : String
  GITLAB_PROJECT_ID : String
  GITLAB_TOKEN : String
  JIRA_SHARED_SECRET : String
  ALLOWED_ASSIGNEES : List String
  JIRA_TO_GITLAB_USER_ID : List (String × Int)
  DONE_STATUSES : List String
  LABEL_PREFIX_STATUS : String
  LABEL_OUT_OF_SCOPE : String
  LABEL_IN_SCOPE : String
  /-- source name: `SYNC_MARKER_PREFIX` (renamed for lexical reasons). -/
  SYNC_MARKER_PREF : String
deriving DecidableEq

/-- The default configuration values of app2.py (empty env). -/
def defaultCfg : Config :=
  { GITLAB_BASE_URL := "https://gitlab.example.com"
    GITLAB_PROJECT_ID := "42"
    GITLAB_TOKEN := "glpat-token"
    JIRA_SHARED_SECRET := ""
    ALLOWED_ASSIGNEES := []
    JIRA_TO_GITLAB_USER_ID := []
    DONE_STATUSES := ["Done", "Closed", "Resolved"]
    LABEL_PREFIX_STATUS := "jira:status:"
    LABEL_OUT_OF_SCOPE := "sync:out-of-scope"
    LABEL_IN_SCOPE := "sync:in-scope"
    SYNC_MARKER_PREF := "JIRA_KEY:" }

/-! ## Raw webhook payload (the JSON shapes `_fingerprint`/`_jira_extract` read) -/

/-- An element of a list-shaped `labels` field: a JSON string or anything else. -/
inductive RItem where
  | str (s : String)
  | nonstr
deriving DecidableEq

def RItem.isStr : RItem → Bool
  | .str _ => true
  | .nonstr => false

/-- The raw `labels` field: absent (or falsy), present but not a list,
or an actual list. -/
inductive LabelsField where
  | absent
  | notList
  | list (l : List RItem)
deriving DecidableEq

/-- `issue.fields.assignee` as a truthy (non-empty) dict. -/
structure RawAssignee where
  name : Option String
  key : Option String
  accountId : Option String
deriving DecidableEq

structure RawStatus where
  name : Option String
deriving DecidableEq

structure RawFields where
  summary : Option String
  description : Option String
  status : Option RawStatus
  assignee : Option RawAssignee
  labels : LabelsField
  updated : Option String
deriving DecidableEq

def emptyFields : RawFields :=
  { summary := none, description := none, status := none, assignee := none
    labels := .absent, updated := none }

structure RawIssue where
  key : Option String
  fields : Option RawFields
deriving DecidableEq

def emptyIssue : RawIssue := { key := none, fields := none }

structure RawPayload where
  issue : Option RawIssue
  webhookEvent : Option String
  issue_event_type_name : Option String
deriving DecidableEq

/-! ## Event Normalizer -/

/-- `_fingerprint(payload)` of app2.py. -/
def fingerprintOf (p : RawPayload) : String :=
  let issue := p.issue.getD emptyIssue
  let key := pyOrD issue.key ""
  let updated := pyOrD (issue.fields.getD emptyFields).updated ""
  let event_type := pyOrS (pyOrD p.webhookEvent "") (pyOrD p.issue_event_type_name "")
  event_type ++ "|" ++ key ++ "|" ++ updated

structure NormalizedEvent where
  key : Option String
  summary : String
  description : String
  status : String
  assignee : Option String
  labels : List RItem
deriving DecidableEq

/-- `_jira_extract(payload)` of app2.py. -/
def jiraExtract (p : RawPayload) : NormalizedEvent :=
  let issue := p.issue.getD emptyIssue
  let fields := issue.fields.getD emptyFields
  let assignee :=
    match fields.assignee with
    | none => none
    | some a => pyOrOpt (pyOrOpt a.name a.key) a.accountId
  { key := issue.key
    summary := pyOrD fields.summary ""
    description := (fields.description).getD ""
    status := pyOrD ((fields.status.getD ⟨none⟩).name) ""
    assignee := assignee
    labels :=
      match fields.labels with
      | .list l => l
      | _ => [] }

/-! ## Scope & Transform Engine -/

/-- `_build_description(jira_key, jira_desc)` of app2.py. -/
def buildDescription (cfg : Config) (jira_key jira_desc : String) : String :=
  let marker := cfg.SYNC_MARKER_PREF ++ " " ++ jira_key
  if pyIn marker jira_desc then jira_desc
  else if pyStrip jira_desc ≠ "" then jira_desc ++ "\n\n---\n" ++ marker
  else marker

/-- One iteration of the first loop of `_labels_merge`:
`if isinstance(l, str) and l.strip(): out.append(l.strip())`. -/
def cleanLabel : RItem → Option String
  | .str s => if pyStrip s = "" then none else some (pyStrip s)
  | .nonstr => none

/-- The first loop of `_labels_merge`: keep stripped, non-empty string labels. -/
def cleanLabels (ls : List RItem) : List String := ls.filterMap cleanLabel

/-- The keep-first deduplication loop at the end of `_labels_merge`
(`seen` is the Python set accumulated so far). -/
def dedupAux (seen : List String) : List String → List String
  | [] => []
  | x :: xs => if x ∈ seen then dedupAux seen xs else x :: dedupAux (x :: seen) xs

def dedupF (l : List String) : List String := dedupAux [] l

/-- The status label appended by `_labels_merge`. -/
def statusLabelOf (cfg : Config) (status : String) : String :=
  if status = "" then cfg.LABEL_PREFIX_STATUS ++ "unknown"
  else cfg.LABEL_PREFIX_STATUS ++ status

/-- The scope label appended by `_labels_merge`. -/
def scopeLabelOf (cfg : Config) (in_scope : Bool) : String :=
  if in_scope then cfg.LABEL_IN_SCOPE else cfg.LABEL_OUT_OF_SCOPE

/-- `_labels_merge` of app2.py before the final deduplication. -/
def labelsMergeRaw (cfg : Config) (jira_labels : List RItem) (status : String)
    (in_scope : Bool) : List String :=
  let out := cleanLabels jira_labels
  let out := out.filter fun l => !pyStartsWith l cfg.LABEL_PREFIX_STATUS
  let out := out ++ [statusLabelOf cfg status]
  let out := out.filter fun l => !(l = cfg.LABEL_OUT_OF_SCOPE || l = cfg.LABEL_IN_SCOPE)
  out ++ [scopeLabelOf cfg in_scope]

/-- `_labels_merge(jira_labels, status, in_scope)` of app2.py. -/
def labelsMerge (cfg : Config) (jira_labels : List RItem) (status : String)
    (in_scope : Bool) : List String :=
  dedupF (labelsMergeRaw cfg jira_labels status in_scope)

/-- `_is_in_scope(assignee)` of app2.py. -/
def isInScope (cfg : Config) (assignee : Option String) : Bool :=
  match assignee with
  | none => false
  | some a =>
    if a = "" then false
    else if cfg.ALLOWED_ASSIGNEES.isEmpty then true
    else cfg.ALLOWED_ASSIGNEES.contains a

/-- `_map_assignee_to_gitlab_ids(assignee, in_scope)` of app2.py
(the mapping's values are modelled as already-integral). -/
def mapAssigneeToGitlabIds (cfg : Config) (assignee : Option String)
    (in_scope : Bool) : List Int :=
  if !in_scope then []
  else
    match assignee with
    | none => []
    | some a =>
      if a = "" then []
      else
        match cfg.JIRA_TO_GITLAB_USER_ID.find? (fun p => p.1 = a) with
        | none => []
        | some p => [p.2]

/-- `_state_event_from_status(status)` of app2.py. -/
def stateEventFromStatus (cfg : Config) (status : String) : Option String :=
  if status = "" then none
  else if cfg.DONE_STATUSES.contains status then some "close"
  else some "reopen"

/-! ## Durable Store (the two sqlite tables, with their operations) -/

/-- A row of the `links` table. -/
structure LinkRow where
  gitlab_project_id : String
  gitlab_issue_iid : Int
  last_synced_at : String
  sync_state : String
deriving DecidableEq

/-- The persisted state: `links` keyed by `jira_key` (PRIMARY KEY), and
`processed` as (fingerprint, created_at) rows keyed by fingerprint. -/
structure Store where
  links : List (String × LinkRow)
  processed : List (String × String)
deriving DecidableEq

/-- `_is_processed(fp)` of app2.py. -/
def isProcessedIn (st : Store) (fp : String) : Bool :=
  st.processed.any fun r => r.1 = fp

/-- `_mark_processed(fp)` of app2.py: `INSERT OR IGNORE`. -/
def markProcessed (st : Store) (fp now : String) : Store :=
  if isProcessedIn st fp then st
  else { st with processed := st.processed ++ [(fp, now)] }

/-- `_get_link(jira_key)` of app2.py: (project id, issue iid, sync state). -/
def getLink (st : Store) (jira_key : String) : Option (String × Int × String) :=
  (st.links.find? fun r => r.1 = jira_key).map fun r =>
    (r.2.gitlab_project_id, r.2.gitlab_issue_iid, r.2.sync_state)

/-- `_upsert_link(jira_key, iid, sync_state)` of app2.py:
`INSERT ... ON CONFLICT(jira_key) DO UPDATE` of all non-key columns. -/
def upsertLink (cfg : Config) (st : Store) (jira_key : String) (iid : Int)
    (sync_state now : String) : Store :=
  let row : LinkRow :=
    { gitlab_project_id := cfg.GITLAB_PROJECT_ID, gitlab_issue_iid := iid
      last_synced_at := now, sync_state := sync_state }
  if st.links.any (fun r => r.1 = jira_key) then
    { st with links := st.links.map fun r => if r.1 = jira_key then (jira_key, row) else r }
  else
    { st with links := st.links ++ [(jira_key, row)] }

/-! ## Target-system calls (`_gitlab_create_issue` / `_gitlab_update_issue`) -/

/-- The `assignee_ids` form field: absent (create with no assignees),
the explicit empty string `""` (update clearing assignees), or a list of ids. -/
inductive AssigneeField where
  | omitted
  | clearAll
  | ids (l : List Int)
deriving DecidableEq

/-- The form data either GitLab call sends. -/
structure FormData where
  title : String
  description : String
  labels : String
  assignee_ids : AssigneeField
  state_event : Option String
deriving DecidableEq

/-- Body construction of `_gitlab_create_issue`: empty `assignee_ids` is
omitted; `state_event` is included only when truthy. -/
def createForm (title description : String) (labels : List String)
    (assignee_ids : List Int) (state_event : Option String) : FormData :=
  { title := title
    description := description
    labels := if labels.isEmpty then "" else String.intercalate "," labels
    assignee_ids := if assignee_ids.isEmpty then .omitted else .ids assignee_ids
    state_event :=
      match state_event with
      | none => none
      | some s => if s = "" then none else some s }

/-- Body construction of `_gitlab_update_issue`: empty `assignee_ids` is sent
as the explicit clear `""`; `state_event` included only when truthy. -/
def updateForm (title description : String) (labels : List String)
    (assignee_ids : List Int) (state_event : Option String) : FormData :=
  { title := title
    description := description
    labels := if labels.isEmpty then "" else String.intercalate "," labels
    assignee_ids := if assignee_ids.isEmpty then .clearAll else .ids assignee_ids
    state_event :=
      match state_event with
      | none => none
      | some s => if s = "" then none else some s }

/-- A target-system call, as recorded in the trace. -/
inductive GCall where
  | create (f : FormData)
  | update (iid : Int) (f : FormData)
deriving DecidableEq

/-- The target system's behaviour: `createResult f = none` models a ≥300
response to the create POST (the code raises 502); `some iid` is the created
issue's iid. `updateOk iid f = false` models a ≥300 response to the update. -/
structure GitlabEnv where
  createResult : FormData → Option Int
  updateOk : Int → FormData → Bool

/-! ## Sync Orchestrator (`jira_webhook`) -/

structure WebhookResponse where
  ok : Bool
  action : String
  jira_key : Option String := none
  gitlab_iid : Option Int := none
deriving DecidableEq

/-- Outcome of one request: a 200 response body, or a raised `HTTPException`
with its status code (401 bad token, 500 missing config, 502 upstream). -/
inductive HandlerOut where
  | resp (r : WebhookResponse)
  | err (status : Nat)
deriving DecidableEq

/-- The create-call form the handler builds for a normalized event
(the local variables `title`, `description`, `labels`, `assignee_ids` of
`jira_webhook`, with the create-path `state_event` restriction). -/
def createFormOf (cfg : Config) (data : NormalizedEvent) (jira_key : String) : FormData :=
  let in_scope := isInScope cfg data.assignee
  createForm (pyOrS data.summary jira_key)
    (buildDescription cfg jira_key (pyOrS data.description ""))
    (labelsMerge cfg data.labels data.status in_scope)
    (mapAssigneeToGitlabIds cfg data.assignee in_scope)
    (if stateEventFromStatus cfg data.status = some "close" then some "close" else none)

/-- The update-call form the handler builds (state_event passed verbatim). -/
def updateFormOf (cfg : Config) (data : NormalizedEvent) (jira_key : String) : FormData :=
  let in_scope := isInScope cfg data.assignee
  updateForm (pyOrS data.summary jira_key)
    (buildDescription cfg jira_key (pyOrS data.description ""))
    (labelsMerge cfg data.labels data.status in_scope)
    (mapAssigneeToGitlabIds cfg data.assignee in_scope)
    (stateEventFromStatus cfg data.status)

/-- The body of `jira_webhook` after the token and configuration checks. -/
def handleEvent (cfg : Config) (env : GitlabEnv) (now : String) (st : Store)
    (payload : RawPayload) : HandlerOut × Store × List GCall :=
  let fp := fingerprintOf payload
  if isProcessedIn st fp then
    (.resp { ok := true, action := "dedup" }, st, [])
  else
    let data := jiraExtract payload
    match pyOptKey data.key with
    | none => (.resp { ok := true, action := "skip_no_key" }, markProcessed st fp now, [])
    | some jira_key =>
      let in_scope := isInScope cfg data.assignee
      match getLink st jira_key with
      | none =>
        if in_scope then
          let form := createFormOf cfg data jira_key
          match env.createResult form with
          | none => (.err 502, st, [.create form])
          | some iid =>
            (.resp { ok := true, action := "created", jira_key := some jira_key
                     gitlab_iid := some iid },
             markProcessed (upsertLink cfg st jira_key iid "in-scope" now) fp now,
             [.create form])
        else
          (.resp { ok := true, action := "skip_create_out_of_scope"
                   jira_key := some jira_key },
           markProcessed st fp now, [])
      | some (_gpid, iid, _sstate) =>
        let form := updateFormOf cfg data jira_key
        if env.updateOk iid form then
          (.resp { ok := true, action := "updated", jira_key := some jira_key
                   gitlab_iid := some iid },
           markProcessed
             (upsertLink cfg st jira_key iid (if in_scope then "in-scope" else "out-of-scope") now)
             fp now,
           [.update iid form])
        else (.err 502, st, [.update iid form])

/-- The token check at the top of `jira_webhook`: passes when the shared
secret is empty, or the `X-Sync-Token` header or the `token` query parameter
equals it. -/
def authOk (cfg : Config) (x_sync_token query_token : Option String) : Bool :=
  cfg.JIRA_SHARED_SECRET = "" ||
    (x_sync_token = some cfg.JIRA_SHARED_SECRET || query_token = some cfg.JIRA_SHARED_SECRET)

/-- The GitLab-env check of `jira_webhook`. -/
def configOk (cfg : Config) : Bool :=
  !(cfg.GITLAB_BASE_URL = "" || cfg.GITLAB_PROJECT_ID = "" || cfg.GITLAB_TOKEN = "")

/-- `jira_webhook` of app2.py as a pure function. -/
def jiraWebhook (cfg : Config) (env : GitlabEnv) (now : String) (st : Store)
    (x_sync_token query_token : Option String) (payload : RawPayload) :
    HandlerOut × Store × List GCall :=
  if !authOk cfg x_sync_token query_token then (.err 401, st, [])
  else if !configOk cfg then (.err 500, st, [])
  else handleEvent cfg env now st payload

/-- Sanity conditions on the label configuration; they hold for the
defaults (`jira:status:` / `sync:in-scope` / `sync:out-of-scope`). -/
structure LabelCfgOk (cfg : Config) : Prop where
  strip_pre : pyStrip cfg.LABEL_PREFIX_STATUS = cfg.LABEL_PREFIX_STATUS
  pre_ne : cfg.LABEL_PREFIX_STATUS ≠ ""
  strip_in : pyStrip cfg.LABEL_IN_SCOPE = cfg.LABEL_IN_SCOPE
  in_ne : cfg.LABEL_IN_SCOPE ≠ ""
  strip_out : pyStrip cfg.LABEL_OUT_OF_SCOPE = cfg.LABEL_OUT_OF_SCOPE
  out_ne : cfg.LABEL_OUT_OF_SCOPE ≠ ""
  in_not_status : pyStartsWith cfg.LABEL_IN_SCOPE cfg.LABEL_PREFIX_STATUS = false
  out_not_status : pyStartsWith cfg.LABEL_OUT_OF_SCOPE cfg.LABEL_PREFIX_STATUS = false
  in_ne_out : cfg.LABEL_IN_SCOPE ≠ cfg.LABEL_OUT_OF_SCOPE

/-- The source-derived part of the merged label list: cleaned labels with
status-prefixed and scope labels removed. -/
def labelsBase (cfg : Config) (ls : List RItem) : List String :=
  ((cleanLabels ls).filter fun l => !pyStartsWith l cfg.LABEL_PREFIX_STATUS).filter
    fun l => !(l = cfg.LABEL_OUT_OF_SCOPE || l = cfg.LABEL_IN_SCOPE)

/-! ## Concrete sample data (used to instantiate the theorems) -/

def sampleEnv : GitlabEnv := { createResult := fun _ => some 7, updateOk := fun _ _ => true }

def failEnv : GitlabEnv := { createResult := fun _ => none, updateOk := fun _ _ => false }

/-- A configuration with a non-empty inbound shared secret. -/
def authCfg : Config := { defaultCfg with JIRA_SHARED_SECRET := "s3cret" }

def emptyStore : Store := { links := [], processed := [] }

/-- A store already holding a Link for PROJ-1. -/
def linkedStore : Store :=
  { links := [("PROJ-1",
      { gitlab_project_id := "42", gitlab_issue_iid := 7, last_synced_at := "t0"
        sync_state := "in-scope" })]
    processed := [] }

/-- Scenario A payload: PROJ-1 assigned to alice, status Done. -/
def payloadA : RawPayload :=
  { issue := some
      { key := some "PROJ-1"
        fields := some
          { summary := some "Title"
            description := some "hello"
            status := some { name := some "Done" }
            assignee := some { name := some "alice", key := none, accountId := none }
            labels := .list [.str " a ", .nonstr, .str "jira:status:old"]
            updated := some "t1" } }
    webhookEvent := some "jira:issue_updated"
    issue_event_type_name := none }

/-- A payload with no assignee (out of scope). -/
def payloadNoAssignee : RawPayload :=
  { issue := some
      { key := some "PROJ-2"
        fields := some
          { summary := some "Other"
            description := none
            status := some { name := some "Open" }
            assignee := none
            labels := .absent
            updated := some "t2" } }
    webhookEvent := some "jira:issue_updated"
    issue_event_type_name := none }

/-- A payload whose labels field is present but not list-shaped. -/
def payloadNotList : RawPayload :=
  { issue := some
      { key := some "PROJ-3"
        fields := some
          { summary := some "Third"
            description := some "d"
            status := none
            assignee := some { name := some "bob", key := none, accountId := none }
            labels := .notList
            updated := none } }
    webhookEvent := none
    issue_event_type_name := some "issue_created" }

/-! ## Lemmas about the Python string primitives -/

theorem lstripL_idem (l : List Char) : lstripL (lstripL l) = lstripL l :=
  List.dropWhile_idempotent pyIsSpace l

theorem rstripL_idem (l : List Char) : rstripL (rstripL l) = rstripL l := by
  unfold rstripL
  rw [List.reverse_reverse, List.dropWhile_idempotent]

theorem lstripL_length_le (l : List Char) : (lstripL l).length ≤ l.length :=
  (List.dropWhile_sublist pyIsSpace).length_le

theorem rstripL_length_le (l : List Char) : (rstripL l).length ≤ l.length := by
  unfold rstripL
  rw [List.length_reverse]
  exact le_trans (List.dropWhile_sublist pyIsSpace).length_le (by rw [List.length_reverse])

/-- If left-stripping changes nothing, the list is empty or starts with
a non-space character. -/
theorem lstripL_fix_head (l : List Char) (h : lstripL l = l) :
    l = [] ∨ ∃ a t, l = a :: t ∧ pyIsSpace a = false := by
  cases l with
  | nil => exact Or.inl rfl
  | cons a t =>
    refine Or.inr ⟨a, t, rfl, ?_⟩
    by_contra hws
    have hws' : pyIsSpace a = true := by
      cases hp : pyIsSpace a with
      | false => exact absurd hp hws
      | true => rfl
    have h1 : lstripL (a :: t) = lstripL t := by
      unfold lstripL
      rw [List.dropWhile_cons, if_pos hws']
    rw [h1] at h
    have := lstripL_length_le t
    rw [h] at this
    simp at this

/-- A left-stripped non-empty list left-strips to itself. -/
theorem lstripL_of_head (a : Char) (t : List Char) (h : pyIsSpace a = false) :
    lstripL (a :: t) = a :: t := by
  unfold lstripL
  rw [List.dropWhile_cons, if_neg (by simp [h])]

theorem stripL_fix_parts (l : List Char) (h : stripL l = l) :
    lstripL l = l ∧ rstripL l = l := by
  have hlen : (stripL l).length ≤ (lstripL l).length := by
    unfold stripL
    exact rstripL_length_le _
  have hle : (lstripL l).length ≤ l.length := lstripL_length_le l
  have heq : (lstripL l).length = l.length := by
    rw [h] at hlen
    omega
  have hfix : lstripL l = l := (List.dropWhile_sublist pyIsSpace).eq_of_length heq
  refine ⟨hfix, ?_⟩
  unfold stripL at h
  rwa [hfix] at h

/-- `dropWhile` only removes an initial segment. -/
theorem exists_append_dropWhile (p : Char → Bool) (u : List Char) :
    ∃ s, u = s ++ u.dropWhile p := by
  induction u with
  | nil => exact ⟨[], rfl⟩
  | cons c v ihv =>
    rw [List.dropWhile_cons]
    by_cases hc : p c = true
    · rw [if_pos hc]
      obtain ⟨s, hs⟩ := ihv
      exact ⟨c :: s, by rw [List.cons_append, ← hs]⟩
    · rw [if_neg hc]
      exact ⟨[], rfl⟩

theorem stripL_idem (l : List Char) : stripL (stripL l) = stripL l := by
  unfold stripL
  rcases lstripL_fix_head (lstripL l) (lstripL_idem l) with hnil | ⟨a, t, heq, hna⟩
  · rw [hnil]
    rfl
  · -- rstripL keeps the head when it returns a non-empty list
    have hsplit : ∃ s, lstripL l = rstripL (lstripL l) ++ s := by
      obtain ⟨s, hs⟩ := exists_append_dropWhile pyIsSpace (lstripL l).reverse
      refine ⟨s.reverse, ?_⟩
      unfold rstripL
      have := congrArg List.reverse hs
      rw [List.reverse_reverse, List.reverse_append] at this
      exact this
    obtain ⟨s, hs⟩ := hsplit
    cases hr : rstripL (lstripL l) with
    | nil => rfl
    | cons b u =>
      have hb : b = a := by
        rw [hr, heq, List.cons_append] at hs
        injection hs with h1 _
        exact h1.symm
      have hfix : lstripL (b :: u) = b :: u := by
        rw [hb]
        exact lstripL_of_head a u hna
      rw [hfix, ← hr, rstripL_idem]

theorem pyStrip_idem (s : String) : pyStrip (pyStrip s) = pyStrip s :=
  congrArg String.mk (stripL_idem s.data)

theorem pyStrip_data (s : String) : (pyStrip s).data = stripL s.data := rfl

/-! ### isPre lemmas -/

theorem isPre_append_self (p r : List Char) : isPre p (p ++ r) = true := by
  induction p with
  | nil => rfl
  | cons a t ih => simp [isPre, ih]

theorem isPre_refl (p : List Char) : isPre p p = true := by
  have := isPre_append_self p []
  rwa [List.append_nil] at this

/-- A string starts with its own prefix-extension: Python
`(pat + rest).startswith(pat)`. -/
theorem pyStartsWith_append (pat rest : String) :
    pyStartsWith (pat ++ rest) pat = true := by
  unfold pyStartsWith
  exact isPre_append_self pat.data rest.data

/-- Stripping a string that begins with a strip-fixed non-empty block keeps
that block as a prefix, and the result is non-empty. -/
theorem stripL_append_isPre (P t : List Char) (hP : stripL P = P) (hne : P ≠ []) :
    isPre P (stripL (P ++ t)) = true ∧ stripL (P ++ t) ≠ [] := by
  obtain ⟨hl, hr⟩ := stripL_fix_parts P hP
  rcases lstripL_fix_head P hl with hnil | ⟨a, q, heq, hna⟩
  · exact absurd hnil hne
  · have hlP : lstripL (P ++ t) = P ++ t := by
      rw [heq, List.cons_append]
      exact lstripL_of_head a (q ++ t) hna
    have hrP : rstripL (P ++ t) = P ++ (t.reverse.dropWhile pyIsSpace).reverse := by
      unfold rstripL
      rw [List.reverse_append, List.dropWhile_append]
      by_cases hemp : (t.reverse.dropWhile pyIsSpace).isEmpty = true
      · rw [if_pos hemp]
        have hPr : P.reverse.dropWhile pyIsSpace = P.reverse := by
          have : (P.reverse.dropWhile pyIsSpace).reverse = P := hr
          have := congrArg List.reverse this
          rwa [List.reverse_reverse] at this
        rw [hPr, List.reverse_reverse]
        have : (t.reverse.dropWhile pyIsSpace) = [] := by
          cases hx : t.reverse.dropWhile pyIsSpace with
          | nil => rfl
          | cons c v => rw [hx] at hemp; simp [List.isEmpty] at hemp
        rw [this]
        simp
      · rw [if_neg hemp, List.reverse_append, List.reverse_reverse]
    have : stripL (P ++ t) = P ++ (t.reverse.dropWhile pyIsSpace).reverse := by
      unfold stripL
      rw [hlP, hrP]
    rw [this]
    constructor
    · exact isPre_append_self _ _
    · intro hcon
      have := congrArg List.length hcon
      simp at this
      exact hne (by cases P with | nil => rfl | cons x xs => simp at this)

/-! ### containsSub lemmas -/

theorem containsSub_append_self (x m : List Char) : containsSub (x ++ m) m = true := by
  induction x with
  | nil =>
    simp only [List.nil_append]
    unfold containsSub
    rw [isPre_refl, Bool.true_or]
  | cons a t ih =>
    show (isPre m (a :: (t ++ m)) || containsSub (t ++ m) m) = true
    rw [ih, Bool.or_true]

/-- Python `m in (x + m)`. -/
theorem pyIn_append_self (x m : String) : pyIn m (x ++ m) = true := by
  unfold pyIn
  exact containsSub_append_self x.data m.data

theorem str_ext {s t : String} (h : s.data = t.data) : s = t := by
  cases s
  cases t
  exact congrArg String.mk h

theorem str_data_ne_nil {s : String} (h : s ≠ "") : s.data ≠ [] := by
  intro hd
  exact h (str_ext hd)

/-! ## Lemmas about the deduplication loop -/

theorem mem_dedupAux (l : List String) :
    ∀ (seen : List String) (x : String), x ∈ dedupAux seen l ↔ x ∈ l ∧ x ∉ seen := by
  induction l with
  | nil => intro seen x; simp [dedupAux]
  | cons a t ih =>
    intro seen x
    unfold dedupAux
    by_cases ha : a ∈ seen
    · rw [if_pos ha, ih]
      constructor
      · rintro ⟨hx, hns⟩
        exact ⟨List.mem_cons_of_mem a hx, hns⟩
      · rintro ⟨hx, hns⟩
        rcases List.mem_cons.mp hx with rfl | hx'
        · exact absurd ha hns
        · exact ⟨hx', hns⟩
    · rw [if_neg ha]
      constructor
      · intro hmem
        rcases List.mem_cons.mp hmem with rfl | hmem'
        · exact ⟨List.mem_cons_self x t, ha⟩
        · rw [ih] at hmem'
          exact ⟨List.mem_cons_of_mem a hmem'.1,
                 fun hm => hmem'.2 (List.mem_cons_of_mem a hm)⟩
      · rintro ⟨hx, hns⟩
        by_cases hxa : x = a
        · subst hxa
          exact List.mem_cons_self x _
        · rcases List.mem_cons.mp hx with rfl | hx'
          · exact absurd rfl hxa
          · refine List.mem_cons_of_mem a ?_
            rw [ih]
            refine ⟨hx', fun hm => ?_⟩
            rcases List.mem_cons.mp hm with h | h
            · exact hxa h
            · exact hns h

theorem nodup_dedupAux (l : List String) : ∀ seen, (dedupAux seen l).Nodup := by
  induction l with
  | nil => intro seen; simp [dedupAux]
  | cons a t ih =>
    intro seen
    unfold dedupAux
    by_cases ha : a ∈ seen
    · rw [if_pos ha]
      exact ih seen
    · rw [if_neg ha]
      rw [List.nodup_cons]
      refine ⟨fun hmem => ?_, ih (a :: seen)⟩
      rw [mem_dedupAux] at hmem
      exact hmem.2 (List.mem_cons_self a seen)

theorem dedupAux_sublist (l : List String) :
    ∀ seen, List.Sublist (dedupAux seen l) l := by
  induction l with
  | nil => intro seen; simp [dedupAux]
  | cons a t ih =>
    intro seen
    unfold dedupAux
    by_cases ha : a ∈ seen
    · rw [if_pos ha]
      exact (ih seen).trans (List.sublist_cons_self a t)
    · rw [if_neg ha]
      exact (ih (a :: seen)).cons₂ a

theorem dedupAux_eq_self (l : List String) :
    ∀ seen, l.Nodup → (∀ x ∈ l, x ∉ seen) → dedupAux seen l = l := by
  induction l with
  | nil => intro seen _ _; rfl
  | cons a t ih =>
    intro seen hnd hdisj
    unfold dedupAux
    rw [if_neg (hdisj a (List.mem_cons_self a t))]
    congr 1
    refine ih (a :: seen) (List.nodup_cons.mp hnd).2 fun x hx hmem => ?_
    rcases List.mem_cons.mp hmem with rfl | hm'
    · exact (List.nodup_cons.mp hnd).1 hx
    · exact hdisj x (List.mem_cons_of_mem a hx) hm'

theorem dedupAux_append_one (a : String) (l : List String) :
    ∀ seen, a ∉ l → a ∉ seen → dedupAux seen (l ++ [a]) = dedupAux seen l ++ [a] := by
  induction l with
  | nil =>
    intro seen _ ha
    show dedupAux seen [a] = dedupAux seen [] ++ [a]
    unfold dedupAux
    rw [if_neg ha]
    rfl
  | cons b t ih =>
    intro seen hal ha
    have hab : a ≠ b := fun h => hal (h ▸ List.mem_cons_self b t)
    have hat : a ∉ t := fun h => hal (List.mem_cons_of_mem b h)
    show dedupAux seen (b :: (t ++ [a])) = dedupAux seen (b :: t) ++ [a]
    unfold dedupAux
    by_cases hb : b ∈ seen
    · rw [if_pos hb, if_pos hb]
      exact ih seen hat ha
    · rw [if_neg hb, if_neg hb, List.cons_append]
      congr 1
      refine ih (b :: seen) hat fun hm => ?_
      rcases List.mem_cons.mp hm with h | h
      · exact hab h
      · exact ha h

theorem mem_dedupF (x : String) (l : List String) : x ∈ dedupF l ↔ x ∈ l := by
  unfold dedupF
  rw [mem_dedupAux]
  simp

theorem nodup_dedupF (l : List String) : (dedupF l).Nodup := nodup_dedupAux l []

theorem dedupF_sublist (l : List String) : List.Sublist (dedupF l) l :=
  dedupAux_sublist l []

theorem dedupF_eq_self (l : List String) (h : l.Nodup) : dedupF l = l :=
  dedupAux_eq_self l [] h (by simp)

theorem dedupF_append_one (a : String) (l : List String) (h : a ∉ l) :
    dedupF (l ++ [a]) = dedupF l ++ [a] :=
  dedupAux_append_one a l [] h (by simp)

/-! ## Lemmas about label composition -/

/-- Every label surviving the first loop of `_labels_merge` is a non-empty,
strip-fixed string. -/
theorem cleanLabels_mem (ls : List RItem) (x : String) (hx : x ∈ cleanLabels ls) :
    pyStrip x = x ∧ x ≠ "" := by
  unfold cleanLabels at hx
  rw [List.mem_filterMap] at hx
  obtain ⟨i, _, hi⟩ := hx
  cases i with
  | nonstr => simp [cleanLabel] at hi
  | str s =>
    simp only [cleanLabel] at hi
    by_cases hs : pyStrip s = ""
    · rw [if_pos hs] at hi
      exact absurd hi (by simp)
    · rw [if_neg hs] at hi
      have hxs : x = pyStrip s := by
        injection hi with h
        exact h.symm
      subst hxs
      exact ⟨pyStrip_idem s, hs⟩

theorem cleanLabel_str_fixed (x : String) (h1 : pyStrip x = x) (h2 : x ≠ "") :
    cleanLabel (.str x) = some x := by
  simp only [cleanLabel]
  rw [h1, if_neg h2]

/-- Wrapping already-clean labels back into raw items and cleaning again is
the identity. -/
theorem cleanLabels_map_str (l : List String)
    (h : ∀ x ∈ l, pyStrip x = x ∧ x ≠ "") :
    cleanLabels (l.map RItem.str) = l := by
  induction l with
  | nil => rfl
  | cons a t ih =>
    have ha := h a (List.mem_cons_self a t)
    unfold cleanLabels
    rw [List.map_cons, List.filterMap_cons,
        cleanLabel_str_fixed a ha.1 ha.2]
    exact congrArg (a :: ·) (ih fun x hx => h x (List.mem_cons_of_mem a hx))

theorem statusLabel_startsWith (cfg : Config) (status : String) :
    pyStartsWith (statusLabelOf cfg status) cfg.LABEL_PREFIX_STATUS = true := by
  unfold statusLabelOf
  by_cases hs : status = ""
  · rw [if_pos hs]
    exact pyStartsWith_append _ _
  · rw [if_neg hs]
    exact pyStartsWith_append _ _

theorem statusLabel_ne_out (cfg : Config) (h : LabelCfgOk cfg) (status : String) :
    statusLabelOf cfg status ≠ cfg.LABEL_OUT_OF_SCOPE := by
  intro heq
  have := statusLabel_startsWith cfg status
  rw [heq, h.out_not_status] at this
  exact Bool.noConfusion this

theorem statusLabel_ne_in (cfg : Config) (h : LabelCfgOk cfg) (status : String) :
    statusLabelOf cfg status ≠ cfg.LABEL_IN_SCOPE := by
  intro heq
  have := statusLabel_startsWith cfg status
  rw [heq, h.in_not_status] at this
  exact Bool.noConfusion this

theorem scopeLabel_cases (cfg : Config) (sc : Bool) :
    scopeLabelOf cfg sc = cfg.LABEL_IN_SCOPE ∨
      scopeLabelOf cfg sc = cfg.LABEL_OUT_OF_SCOPE := by
  cases sc
  · exact Or.inr rfl
  · exact Or.inl rfl

theorem scopeLabel_not_startsWith (cfg : Config) (h : LabelCfgOk cfg) (sc : Bool) :
    pyStartsWith (scopeLabelOf cfg sc) cfg.LABEL_PREFIX_STATUS = false := by
  cases sc
  · exact h.out_not_status
  · exact h.in_not_status

theorem scopeLabel_strip (cfg : Config) (h : LabelCfgOk cfg) (sc : Bool) :
    pyStrip (scopeLabelOf cfg sc) = scopeLabelOf cfg sc ∧ scopeLabelOf cfg sc ≠ "" := by
  cases sc
  · exact ⟨h.strip_out, h.out_ne⟩
  · exact ⟨h.strip_in, h.in_ne⟩

theorem scopeLabel_ne_statusLabel (cfg : Config) (h : LabelCfgOk cfg)
    (sc : Bool) (status : String) :
    scopeLabelOf cfg sc ≠ statusLabelOf cfg status := by
  rcases scopeLabel_cases cfg sc with hc | hc
  · rw [hc]
    exact fun heq => statusLabel_ne_in cfg h status heq.symm
  · rw [hc]
    exact fun heq => statusLabel_ne_out cfg h status heq.symm

/-- Stripping a status-prefixed label keeps it non-empty and status-prefixed
(used when `_labels_merge` is re-applied to its own output). -/
theorem pyStrip_statusish (P x : String) (h1 : pyStrip P = P) (h2 : P ≠ "") :
    pyStrip (P ++ x) ≠ "" ∧ pyStartsWith (pyStrip (P ++ x)) P = true := by
  have hd : stripL P.data = P.data := congrArg String.data h1
  have hne : P.data ≠ [] := str_data_ne_nil h2
  have hmain := stripL_append_isPre P.data x.data hd hne
  have hdata : (P ++ x).data = P.data ++ x.data := rfl
  constructor
  · intro hcon
    have hnil : (pyStrip (P ++ x)).data = [] := by rw [hcon]
    rw [pyStrip_data, hdata] at hnil
    exact hmain.2 hnil
  · unfold pyStartsWith
    rw [pyStrip_data, hdata]
    exact hmain.1

theorem statusLabel_strip (cfg : Config) (h : LabelCfgOk cfg) (status : String) :
    pyStrip (statusLabelOf cfg status) ≠ "" ∧
      pyStartsWith (pyStrip (statusLabelOf cfg status)) cfg.LABEL_PREFIX_STATUS = true := by
  unfold statusLabelOf
  by_cases hs : status = ""
  · rw [if_pos hs]
    exact pyStrip_statusish _ _ h.strip_pre h.pre_ne
  · rw [if_neg hs]
    exact pyStrip_statusish _ _ h.strip_pre h.pre_ne

theorem labelsBase_mem (cfg : Config) (ls : List RItem) (x : String)
    (hx : x ∈ labelsBase cfg ls) :
    x ∈ cleanLabels ls ∧ pyStartsWith x cfg.LABEL_PREFIX_STATUS = false ∧
      x ≠ cfg.LABEL_OUT_OF_SCOPE ∧ x ≠ cfg.LABEL_IN_SCOPE := by
  unfold labelsBase at hx
  rw [List.mem_filter] at hx
  obtain ⟨hx1, hq⟩ := hx
  rw [List.mem_filter] at hx1
  obtain ⟨hc, hp⟩ := hx1
  refine ⟨hc, ?_, ?_, ?_⟩
  · cases hb : pyStartsWith x cfg.LABEL_PREFIX_STATUS
    · rfl
    · rw [hb] at hp
      exact Bool.noConfusion hp
  · intro heq
    rw [heq] at hq
    simp at hq
  · intro heq
    rw [heq] at hq
    simp at hq

theorem labelsMergeRaw_decomp (cfg : Config) (h : LabelCfgOk cfg)
    (ls : List RItem) (status : String) (sc : Bool) :
    labelsMergeRaw cfg ls status sc =
      labelsBase cfg ls ++ [statusLabelOf cfg status, scopeLabelOf cfg sc] := by
  simp only [labelsMergeRaw, labelsBase]
  rw [List.filter_append]
  have hsl : List.filter (fun l => !(l = cfg.LABEL_OUT_OF_SCOPE || l = cfg.LABEL_IN_SCOPE))
      [statusLabelOf cfg status] = [statusLabelOf cfg status] := by
    rw [List.filter_cons]
    rw [if_pos (by simp [statusLabel_ne_out cfg h status, statusLabel_ne_in cfg h status])]
    rfl
  rw [hsl, List.append_assoc]
  rfl

theorem labelsMerge_decomp (cfg : Config) (h : LabelCfgOk cfg)
    (ls : List RItem) (status : String) (sc : Bool) :
    labelsMerge cfg ls status sc =
      dedupF (labelsBase cfg ls) ++ [statusLabelOf cfg status, scopeLabelOf cfg sc] := by
  unfold labelsMerge
  rw [labelsMergeRaw_decomp cfg h ls status sc]
  have h1 : statusLabelOf cfg status ∉ labelsBase cfg ls := by
    intro hm
    have := (labelsBase_mem cfg ls _ hm).2.1
    rw [statusLabel_startsWith] at this
    exact Bool.noConfusion this
  have h2 : scopeLabelOf cfg sc ∉ labelsBase cfg ls ++ [statusLabelOf cfg status] := by
    intro hm
    rcases List.mem_append.mp hm with hm' | hm'
    · have hb := labelsBase_mem cfg ls _ hm'
      rcases scopeLabel_cases cfg sc with hc | hc
      · exact hb.2.2.2 hc
      · exact hb.2.2.1 hc
    · rcases List.mem_cons.mp hm' with heq | hm''
      · exact scopeLabel_ne_statusLabel cfg h sc status heq
      · simp at hm''
  have hassoc : labelsBase cfg ls ++ [statusLabelOf cfg status, scopeLabelOf cfg sc] =
      (labelsBase cfg ls ++ [statusLabelOf cfg status]) ++ [scopeLabelOf cfg sc] := by
    rw [List.append_assoc]
    rfl
  rw [hassoc, dedupF_append_one _ _ h2, dedupF_append_one _ _ h1, List.append_assoc]
  rfl

theorem cleanLabels_append (a b : List RItem) :
    cleanLabels (a ++ b) = cleanLabels a ++ cleanLabels b :=
  List.filterMap_append a b cleanLabel

theorem dedupF_labelsBase_mem (cfg : Config) (ls : List RItem) (x : String)
    (hx : x ∈ dedupF (labelsBase cfg ls)) :
    x ∈ cleanLabels ls ∧ pyStartsWith x cfg.LABEL_PREFIX_STATUS = false ∧
      x ≠ cfg.LABEL_OUT_OF_SCOPE ∧ x ≠ cfg.LABEL_IN_SCOPE :=
  labelsBase_mem cfg ls x ((mem_dedupF x _).mp hx)

theorem labelsMerge_nodup_core (cfg : Config) (h : LabelCfgOk cfg)
    (ls : List RItem) (status : String) (sc : Bool) :
    (dedupF (labelsBase cfg ls) ++
      [statusLabelOf cfg status, scopeLabelOf cfg sc]).Nodup := by
  rw [List.nodup_append]
  refine ⟨nodup_dedupF _, ?_, ?_⟩
  · rw [List.nodup_cons]
    constructor
    · intro hm
      rcases List.mem_cons.mp hm with heq | hm'
      · exact scopeLabel_ne_statusLabel cfg h sc status heq.symm
      · simp at hm'
    · simp
  · intro a haD ham
    have hb := dedupF_labelsBase_mem cfg ls a haD
    rcases List.mem_cons.mp ham with rfl | ham'
    · rw [statusLabel_startsWith] at hb
      exact Bool.noConfusion hb.2.1
    · rcases List.mem_cons.mp ham' with rfl | ham''
      · rcases scopeLabel_cases cfg sc with hc | hc
        · exact hb.2.2.2 hc
        · exact hb.2.2.1 hc
      · simp at ham''

theorem labelsMerge_nodup (cfg : Config) (h : LabelCfgOk cfg)
    (ls : List RItem) (status : String) (sc : Bool) :
    (labelsMerge cfg ls status sc).Nodup := by
  rw [labelsMerge_decomp cfg h ls status sc]
  exact labelsMerge_nodup_core cfg h ls status sc

/-- Re-applying `_labels_merge` to its own output (with the same status and
scope flag) is the identity. -/
theorem labelsMerge_fixed (cfg : Config) (h : LabelCfgOk cfg)
    (ls : List RItem) (status : String) (sc : Bool) :
    labelsMerge cfg ((labelsMerge cfg ls status sc).map RItem.str) status sc =
      labelsMerge cfg ls status sc := by
  have hdec := labelsMerge_decomp cfg h ls status sc
  have hDmem := dedupF_labelsBase_mem cfg ls
  have hDfix : ∀ x ∈ dedupF (labelsBase cfg ls), pyStrip x = x ∧ x ≠ "" :=
    fun x hx => cleanLabels_mem ls x (hDmem x hx).1
  have hsSt := statusLabel_strip cfg h status
  have hscSt := scopeLabel_strip cfg h sc
  have hst1 := statusLabel_startsWith cfg status
  have hsne_out := statusLabel_ne_out cfg h status
  have hsne_in := statusLabel_ne_in cfg h status
  have hsccases := scopeLabel_cases cfg sc
  have hscstart := scopeLabel_not_startsWith cfg h sc
  have hnd := labelsMerge_nodup_core cfg h ls status sc
  set D := dedupF (labelsBase cfg ls) with hDdef
  set sL := statusLabelOf cfg status with hsLdef
  set scL := scopeLabelOf cfg sc with hscLdef
  -- cleaning the wrapped output
  have hA : cleanLabels ((D ++ [sL, scL]).map RItem.str) = D ++ [pyStrip sL, scL] := by
    rw [List.map_append, cleanLabels_append]
    congr 1
    · exact cleanLabels_map_str D hDfix
    · show cleanLabels [RItem.str sL, RItem.str scL] = [pyStrip sL, scL]
      unfold cleanLabels
      rw [List.filterMap_cons, List.filterMap_cons]
      rw [show cleanLabel (RItem.str sL) = some (pyStrip sL) by
            simp only [cleanLabel]
            rw [if_neg hsSt.1]]
      rw [cleanLabel_str_fixed scL hscSt.1 hscSt.2]
      rfl
  -- the status filter removes the (stripped) status label, keeps the rest
  have hfp1 : List.filter (fun l => !pyStartsWith l cfg.LABEL_PREFIX_STATUS)
      (D ++ [pyStrip sL, scL]) = D ++ [scL] := by
    rw [List.filter_append]
    congr 1
    · exact List.filter_eq_self.mpr fun a ha => by
        rw [(hDmem a ha).2.1]
        rfl
    · simp only [List.filter_cons, List.filter_nil]
      rw [hsSt.2, hscstart]
      simp
  -- the scope filter removes the scope label, keeps the rest
  have hfq : List.filter (fun l => !(l = cfg.LABEL_OUT_OF_SCOPE || l = cfg.LABEL_IN_SCOPE))
      ((D ++ [scL]) ++ [sL]) = D ++ [sL] := by
    rw [List.filter_append, List.filter_append]
    have hD1 : List.filter
        (fun l => !(l = cfg.LABEL_OUT_OF_SCOPE || l = cfg.LABEL_IN_SCOPE)) D = D :=
      List.filter_eq_self.mpr fun a ha => by
        have hb := hDmem a ha
        simp [hb.2.2.1, hb.2.2.2]
    have hsc1 : List.filter
        (fun l => !(l = cfg.LABEL_OUT_OF_SCOPE || l = cfg.LABEL_IN_SCOPE)) [scL] = [] := by
      rcases hsccases with hc | hc <;> simp [List.filter_cons, hc]
    have hsL1 : List.filter
        (fun l => !(l = cfg.LABEL_OUT_OF_SCOPE || l = cfg.LABEL_IN_SCOPE)) [sL] = [sL] := by
      simp [List.filter_cons, hsne_out, hsne_in]
    rw [hD1, hsc1, hsL1]
    simp
  have hraw : labelsMergeRaw cfg ((D ++ [sL, scL]).map RItem.str) status sc =
      (D ++ [sL]) ++ [scL] := by
    simp only [labelsMergeRaw]
    rw [hA, hfp1, hfq]
  rw [hdec]
  unfold labelsMerge
  rw [hraw]
  have hassoc : (D ++ [sL]) ++ [scL] = D ++ [sL, scL] := by
    rw [List.append_assoc]
    rfl
  rw [hassoc]
  exact dedupF_eq_self _ hnd

/-! ## Lemmas about the Durable Store operations -/

theorem getLink_markProcessed (st : Store) (fp now k : String) :
    getLink (markProcessed st fp now) k = getLink st k := by
  unfold markProcessed
  by_cases h : isProcessedIn st fp = true
  · rw [if_pos h]
  · rw [if_neg h]
    rfl

theorem links_markProcessed (st : Store) (fp now : String) :
    (markProcessed st fp now).links = st.links := by
  unfold markProcessed
  by_cases h : isProcessedIn st fp = true
  · rw [if_pos h]
  · rw [if_neg h]

theorem isProcessedIn_markProcessed_self (st : Store) (fp now : String) :
    isProcessedIn (markProcessed st fp now) fp = true := by
  unfold markProcessed
  by_cases h : isProcessedIn st fp = true
  · rw [if_pos h]
    exact h
  · rw [if_neg h]
    unfold isProcessedIn
    simp

theorem isProcessedIn_upsertLink (cfg : Config) (st : Store) (k : String) (iid : Int)
    (ss now fp : String) :
    isProcessedIn (upsertLink cfg st k iid ss now) fp = isProcessedIn st fp := by
  unfold upsertLink
  by_cases h : st.links.any (fun r => r.1 = k) = true
  · rw [if_pos h]
    rfl
  · rw [if_neg h]
    rfl

theorem processed_markProcessed_count (st : Store) (fp now : String)
    (h : isProcessedIn st fp = false) :
    (markProcessed st fp now).processed.countP (fun r => r.1 = fp) = 1 := by
  have hz : st.processed.countP (fun r => r.1 = fp) = 0 := by
    rw [List.countP_eq_zero]
    intro a ha hp
    have : st.processed.any (fun r => r.1 = fp) = true :=
      List.any_eq_true.mpr ⟨a, ha, hp⟩
    rw [show st.processed.any (fun r => r.1 = fp) = isProcessedIn st fp from rfl, h] at this
    exact Bool.noConfusion this
  unfold markProcessed
  rw [if_neg (by rw [h]; exact Bool.noConfusion)]
  simp only [List.countP_append, hz]
  simp [List.countP_cons]

theorem processed_upsertLink (cfg : Config) (st : Store) (k : String) (iid : Int)
    (ss now : String) :
    (upsertLink cfg st k iid ss now).processed = st.processed := by
  unfold upsertLink
  by_cases h : st.links.any (fun r => r.1 = k) = true
  · rw [if_pos h]
  · rw [if_neg h]

/-- `find?` over the in-place replacement performed by the upsert's
UPDATE branch. -/
theorem find_map_replace (k : String) (row : LinkRow) (l : List (String × LinkRow))
    (h : l.any (fun r => r.1 = k) = true) :
    (l.map fun r => if r.1 = k then (k, row) else r).find?
      (fun r => r.1 = k) = some (k, row) := by
  induction l with
  | nil => simp at h
  | cons a t ih =>
    rw [List.map_cons]
    by_cases ha : a.1 = k
    · rw [if_pos ha]
      exact List.find?_cons_of_pos _ (by simp)
    · rw [if_neg ha]
      rw [List.find?_cons_of_neg _ (by simp [ha])]
      apply ih
      rw [List.any_cons] at h
      rw [decide_eq_false ha, Bool.false_or] at h
      exact h

theorem find_map_replace_ne (j : String) (row : LinkRow) (l : List (String × LinkRow))
    (k : String) (hne : k ≠ j) :
    (l.map fun r => if r.1 = j then (j, row) else r).find? (fun r => r.1 = k) =
      l.find? (fun r => r.1 = k) := by
  induction l with
  | nil => rfl
  | cons a t ih =>
    rw [List.map_cons]
    by_cases ha : a.1 = j
    · rw [if_pos ha]
      rw [List.find?_cons_of_neg _ (by simp [Ne.symm (ha ▸ hne)]; exact fun hc => hne hc.symm)]
      rw [List.find?_cons_of_neg _ (by simp [ha ▸ hne]; intro hc; exact hne (hc ▸ ha ▸ rfl))]
      exact ih
    · rw [if_neg ha]
      by_cases hk : a.1 = k
      · rw [List.find?_cons_of_pos _ (by simp [hk]), List.find?_cons_of_pos _ (by simp [hk])]
      · rw [List.find?_cons_of_neg _ (by simp [hk]), List.find?_cons_of_neg _ (by simp [hk])]
        exact ih

theorem find_append_of_none {p : String × LinkRow → Bool} (l m : List (String × LinkRow))
    (h : l.find? p = none) : (l ++ m).find? p = m.find? p := by
  induction l with
  | nil => rfl
  | cons a t ih =>
    by_cases ha : p a = true
    · rw [List.find?_cons_of_pos _ ha] at h
      exact Option.noConfusion h
    · rw [List.find?_cons_of_neg _ ha] at h
      rw [List.cons_append, List.find?_cons_of_neg _ ha]
      exact ih h

theorem find_append_of_some {p : String × LinkRow → Bool} (l m : List (String × LinkRow))
    (r : String × LinkRow) (h : l.find? p = some r) : (l ++ m).find? p = some r := by
  induction l with
  | nil => exact Option.noConfusion h
  | cons a t ih =>
    by_cases ha : p a = true
    · rw [List.find?_cons_of_pos _ ha] at h
      rw [List.cons_append, List.find?_cons_of_pos _ ha]
      exact h
    · rw [List.find?_cons_of_neg _ ha] at h
      rw [List.cons_append, List.find?_cons_of_neg _ ha]
      exact ih h

/-- After upserting key `k`, looking up `k` yields the new row's projection. -/
theorem getLink_upsertLink_self (cfg : Config) (st : Store) (k : String) (iid : Int)
    (ss now : String) :
    getLink (upsertLink cfg st k iid ss now) k =
      some (cfg.GITLAB_PROJECT_ID, iid, ss) := by
  unfold upsertLink getLink
  by_cases h : st.links.any (fun r => r.1 = k) = true
  · rw [if_pos h]
    simp only
    rw [find_map_replace k _ st.links h]
    rfl
  · rw [if_neg h]
    simp only
    have hnone : st.links.find? (fun r => r.1 = k) = none := by
      rw [List.find?_eq_none]
      intro x hx hp
      exact h (List.any_eq_true.mpr ⟨x, hx, by simpa using hp⟩)
    rw [find_append_of_none _ _ hnone]
    rw [List.find?_cons_of_pos _ (by simp)]
    rfl

/-- Upserting key `j` does not affect the lookup of a different key. -/
theorem getLink_upsertLink_ne (cfg : Config) (st : Store) (j : String) (iid : Int)
    (ss now k : String) (hne : k ≠ j) :
    getLink (upsertLink cfg st j iid ss now) k = getLink st k := by
  unfold upsertLink getLink
  by_cases h : st.links.any (fun r => r.1 = j) = true
  · rw [if_pos h]
    simp only
    rw [find_map_replace_ne j _ st.links k hne]
  · rw [if_neg h]
    simp only
    cases hf : st.links.find? (fun r => r.1 = k) with
    | none =>
      rw [find_append_of_none _ _ hf]
      rw [List.find?_cons_of_neg _ (by simp [Ne.symm hne])]
      rfl
    | some r =>
      rw [find_append_of_some _ _ r hf]

/-! ## Path lemmas for the orchestrator -/

theorem jiraWebhook_eq_handleEvent (cfg : Config) (env : GitlabEnv) (now : String)
    (st : Store) (tok qtok : Option String) (payload : RawPayload)
    (hauth : authOk cfg tok qtok = true) (hcfg : configOk cfg = true) :
    jiraWebhook cfg env now st tok qtok payload = handleEvent cfg env now st payload := by
  unfold jiraWebhook
  rw [hauth, hcfg]
  rfl

theorem handleEvent_dedup (cfg : Config) (env : GitlabEnv) (now : String)
    (st : Store) (payload : RawPayload)
    (hfp : isProcessedIn st (fingerprintOf payload) = true) :
    handleEvent cfg env now st payload =
      (.resp { ok := true, action := "dedup" }, st, []) := by
  simp [handleEvent, hfp]

theorem handleEvent_no_key (cfg : Config) (env : GitlabEnv) (now : String)
    (st : Store) (payload : RawPayload)
    (hfp : isProcessedIn st (fingerprintOf payload) = false)
    (hkey : pyOptKey (jiraExtract payload).key = none) :
    handleEvent cfg env now st payload =
      (.resp { ok := true, action := "skip_no_key" },
       markProcessed st (fingerprintOf payload) now, []) := by
  simp [handleEvent, hfp, hkey]

theorem handleEvent_skip_oos (cfg : Config) (env : GitlabEnv) (now : String)
    (st : Store) (payload : RawPayload) (k : String)
    (hfp : isProcessedIn st (fingerprintOf payload) = false)
    (hkey : pyOptKey (jiraExtract payload).key = some k)
    (hlink : getLink st k = none)
    (hsc : isInScope cfg (jiraExtract payload).assignee = false) :
    handleEvent cfg env now st payload =
      (.resp { ok := true, action := "skip_create_out_of_scope", jira_key := some k },
       markProcessed st (fingerprintOf payload) now, []) := by
  simp [handleEvent, hfp, hkey, hlink, hsc]

theorem handleEvent_created (cfg : Config) (env : GitlabEnv) (now : String)
    (st : Store) (payload : RawPayload) (k : String) (iid : Int)
    (hfp : isProcessedIn st (fingerprintOf payload) = false)
    (hkey : pyOptKey (jiraExtract payload).key = some k)
    (hlink : getLink st k = none)
    (hsc : isInScope cfg (jiraExtract payload).assignee = true)
    (hcr : env.createResult (createFormOf cfg (jiraExtract payload) k) = some iid) :
    handleEvent cfg env now st payload =
      (.resp { ok := true, action := "created", jira_key := some k, gitlab_iid := some iid },
       markProcessed (upsertLink cfg st k iid "in-scope" now) (fingerprintOf payload) now,
       [.create (createFormOf cfg (jiraExtract payload) k)]) := by
  simp [handleEvent, hfp, hkey, hlink, hsc, hcr]

theorem handleEvent_create_fail (cfg : Config) (env : GitlabEnv) (now : String)
    (st : Store) (payload : RawPayload) (k : String)
    (hfp : isProcessedIn st (fingerprintOf payload) = false)
    (hkey : pyOptKey (jiraExtract payload).key = some k)
    (hlink : getLink st k = none)
    (hsc : isInScope cfg (jiraExtract payload).assignee = true)
    (hcr : env.createResult (createFormOf cfg (jiraExtract payload) k) = none) :
    handleEvent cfg env now st payload =
      (.err 502, st, [.create (createFormOf cfg (jiraExtract payload) k)]) := by
  simp [handleEvent, hfp, hkey, hlink, hsc, hcr]

theorem handleEvent_updated (cfg : Config) (env : GitlabEnv) (now : String)
    (st : Store) (payload : RawPayload) (k gp : String) (iid : Int) (ss : String)
    (hfp : isProcessedIn st (fingerprintOf payload) = false)
    (hkey : pyOptKey (jiraExtract payload).key = some k)
    (hlink : getLink st k = some (gp, iid, ss))
    (hup : env.updateOk iid (updateFormOf cfg (jiraExtract payload) k) = true) :
    handleEvent cfg env now st payload =
      (.resp { ok := true, action := "updated", jira_key := some k, gitlab_iid := some iid },
       markProcessed
         (upsertLink cfg st k iid
           (if isInScope cfg (jiraExtract payload).assignee then "in-scope" else "out-of-scope")
           now)
         (fingerprintOf payload) now,
       [.update iid (updateFormOf cfg (jiraExtract payload) k)]) := by
  simp [handleEvent, hfp, hkey, hlink, hup]

theorem handleEvent_update_fail (cfg : Config) (env : GitlabEnv) (now : String)
    (st : Store) (payload : RawPayload) (k gp : String) (iid : Int) (ss : String)
    (hfp : isProcessedIn st (fingerprintOf payload) = false)
    (hkey : pyOptKey (jiraExtract payload).key = some k)
    (hlink : getLink st k = some (gp, iid, ss))
    (hup : env.updateOk iid (updateFormOf cfg (jiraExtract payload) k) = false) :
    handleEvent cfg env now st payload =
      (.err 502, st, [.update iid (updateFormOf cfg (jiraExtract payload) k)]) := by
  simp [handleEvent, hfp, hkey, hlink, hup]

/-- The seven possible outcomes of one handled event, with the conditions
that select them. -/
theorem handleEvent_shape (cfg : Config) (env : GitlabEnv) (now : String)
    (st : Store) (payload : RawPayload) :
    (isProcessedIn st (fingerprintOf payload) = true ∧
      handleEvent cfg env now st payload =
        (.resp { ok := true, action := "dedup" }, st, [])) ∨
    (isProcessedIn st (fingerprintOf payload) = false ∧
      pyOptKey (jiraExtract payload).key = none ∧
      handleEvent cfg env now st payload =
        (.resp { ok := true, action := "skip_no_key" },
         markProcessed st (fingerprintOf payload) now, [])) ∨
    (∃ k, isProcessedIn st (fingerprintOf payload) = false ∧
      pyOptKey (jiraExtract payload).key = some k ∧ getLink st k = none ∧
      isInScope cfg (jiraExtract payload).assignee = false ∧
      handleEvent cfg env now st payload =
        (.resp { ok := true, action := "skip_create_out_of_scope", jira_key := some k },
         markProcessed st (fingerprintOf payload) now, [])) ∨
    (∃ k iid, isProcessedIn st (fingerprintOf payload) = false ∧
      pyOptKey (jiraExtract payload).key = some k ∧ getLink st k = none ∧
      isInScope cfg (jiraExtract payload).assignee = true ∧
      env.createResult (createFormOf cfg (jiraExtract payload) k) = some iid ∧
      handleEvent cfg env now st payload =
        (.resp { ok := true, action := "created", jira_key := some k, gitlab_iid := some iid },
         markProcessed (upsertLink cfg st k iid "in-scope" now) (fingerprintOf payload) now,
         [.create (createFormOf cfg (jiraExtract payload) k)])) ∨
    (∃ k, isProcessedIn st (fingerprintOf payload) = false ∧
      pyOptKey (jiraExtract payload).key = some k ∧ getLink st k = none ∧
      isInScope cfg (jiraExtract payload).assignee = true ∧
      env.createResult (createFormOf cfg (jiraExtract payload) k) = none ∧
      handleEvent cfg env now st payload =
        (.err 502, st, [.create (createFormOf cfg (jiraExtract payload) k)])) ∨
    (∃ k gp iid ss, isProcessedIn st (fingerprintOf payload) = false ∧
      pyOptKey (jiraExtract payload).key = some k ∧ getLink st k = some (gp, iid, ss) ∧
      env.updateOk iid (updateFormOf cfg (jiraExtract payload) k) = true ∧
      handleEvent cfg env now st payload =
        (.resp { ok := true, action := "updated", jira_key := some k, gitlab_iid := some iid },
         markProcessed
           (upsertLink cfg st k iid
             (if isInScope cfg (jiraExtract payload).assignee then "in-scope" else "out-of-scope")
             now)
           (fingerprintOf payload) now,
         [.update iid (updateFormOf cfg (jiraExtract payload) k)])) ∨
    (∃ k gp iid ss, isProcessedIn st (fingerprintOf payload) = false ∧
      pyOptKey (jiraExtract payload).key = some k ∧ getLink st k = some (gp, iid, ss) ∧
      env.updateOk iid (updateFormOf cfg (jiraExtract payload) k) = false ∧
      handleEvent cfg env now st payload =
        (.err 502, st, [.update iid (updateFormOf cfg (jiraExtract payload) k)])) := by
  cases hfp : isProcessedIn st (fingerprintOf payload) with
  | true => exact Or.inl ⟨rfl, handleEvent_dedup cfg env now st payload hfp⟩
  | false =>
    cases hkey : pyOptKey (jiraExtract payload).key with
    | none =>
      exact Or.inr (Or.inl ⟨rfl, rfl, handleEvent_no_key cfg env now st payload hfp hkey⟩)
    | some k =>
      cases hlink : getLink st k with
      | none =>
        cases hsc : isInScope cfg (jiraExtract payload).assignee with
        | false =>
          exact Or.inr (Or.inr (Or.inl ⟨k, rfl, rfl, hlink, rfl,
            handleEvent_skip_oos cfg env now st payload k hfp hkey hlink hsc⟩))
        | true =>
          cases hcr : env.createResult (createFormOf cfg (jiraExtract payload) k) with
          | some iid =>
            exact Or.inr (Or.inr (Or.inr (Or.inl ⟨k, iid, rfl, rfl, hlink, rfl, hcr,
              handleEvent_created cfg env now st payload k iid hfp hkey hlink hsc hcr⟩)))
          | none =>
            exact Or.inr (Or.inr (Or.inr (Or.inr (Or.inl ⟨k, rfl, rfl, hlink, rfl, hcr,
              handleEvent_create_fail cfg env now st payload k hfp hkey hlink hsc hcr⟩))))
      | some triple =>
        obtain ⟨gp, iid, ss⟩ := triple
        cases hup : env.updateOk iid (updateFormOf cfg (jiraExtract payload) k) with
        | true =>
          exact Or.inr (Or.inr (Or.inr (Or.inr (Or.inr (Or.inl ⟨k, gp, iid, ss, rfl, rfl,
            hlink, hup,
            handleEvent_updated cfg env now st payload k gp iid ss hfp hkey hlink hup⟩)))))
        | false =>
          exact Or.inr (Or.inr (Or.inr (Or.inr (Or.inr (Or.inr ⟨k, gp, iid, ss, rfl, rfl,
            hlink, hup,
            handleEvent_update_fail cfg env now st payload k gp iid ss hfp hkey hlink hup⟩)))))

/-- A successful (2xx) handling always leaves the event's fingerprint marked. -/
theorem handleEvent_resp_processed (cfg : Config) (env : GitlabEnv) (now : String)
    (st : Store) (payload : RawPayload) (r : WebhookResponse)
    (h : (handleEvent cfg env now st payload).1 = .resp r) :
    isProcessedIn (handleEvent cfg env now st payload).2.1 (fingerprintOf payload) = true := by
  rcases handleEvent_shape cfg env now st payload with
    ⟨hfp, he⟩ | ⟨_, _, he⟩ | ⟨k, _, _, _, _, he⟩ | ⟨k, iid, _, _, _, _, _, he⟩ |
    ⟨k, _, _, _, _, _, he⟩ | ⟨k, gp, iid, ss, _, _, _, _, he⟩ | ⟨k, gp, iid, ss, _, _, _, _, he⟩
  · rw [he]
    exact hfp
  · rw [he]
    exact isProcessedIn_markProcessed_self _ _ _
  · rw [he]
    exact isProcessedIn_markProcessed_self _ _ _
  · rw [he]
    exact isProcessedIn_markProcessed_self _ _ _
  · rw [he] at h
    exact absurd h (by simp)
  · rw [he]
    exact isProcessedIn_markProcessed_self _ _ _
  · rw [he] at h
    exact absurd h (by simp)

/-- The handler body never raises 401: it either returns a response or
raises 502. -/
theorem handleEvent_out_shape (cfg : Config) (env : GitlabEnv) (now : String)
    (st : Store) (payload : RawPayload) :
    (∃ r, (handleEvent cfg env now st payload).1 = .resp r) ∨
      (handleEvent cfg env now st payload).1 = .err 502 := by
  rcases handleEvent_shape cfg env now st payload with
    ⟨_, he⟩ | ⟨_, _, he⟩ | ⟨k, _, _, _, _, he⟩ | ⟨k, iid, _, _, _, _, _, he⟩ |
    ⟨k, _, _, _, _, _, he⟩ | ⟨k, gp, iid, ss, _, _, _, _, he⟩ | ⟨k, gp, iid, ss, _, _, _, _, he⟩
  all_goals rw [he]
  · exact Or.inl ⟨_, rfl⟩
  · exact Or.inl ⟨_, rfl⟩
  · exact Or.inl ⟨_, rfl⟩
  · exact Or.inl ⟨_, rfl⟩
  · exact Or.inr rfl
  · exact Or.inl ⟨_, rfl⟩
  · exact Or.inr rfl

/-- A delivery whose fingerprint is already marked issues no target calls
and leaves the store unchanged, whatever the credentials. -/
theorem jiraWebhook_processed_noop (cfg : Config) (env : GitlabEnv) (now : String)
    (st : Store) (tok qtok : Option String) (payload : RawPayload)
    (h : isProcessedIn st (fingerprintOf payload) = true) :
    (jiraWebhook cfg env now st tok qtok payload).2.1 = st ∧
      (jiraWebhook cfg env now st tok qtok payload).2.2 = [] := by
  unfold jiraWebhook
  cases ha : authOk cfg tok qtok with
  | false => exact ⟨rfl, rfl⟩
  | true =>
    cases hc : configOk cfg with
    | false => exact ⟨rfl, rfl⟩
    | true =>
      simp only [Bool.not_true, Bool.false_eq_true, if_false]
      rw [handleEvent_dedup cfg env now st payload h]
      exact ⟨rfl, rfl⟩

/-- The `jira_webhook` wrapper returns a response only via the handler body. -/
theorem jiraWebhook_resp_processed (cfg : Config) (env : GitlabEnv) (now : String)
    (st : Store) (tok qtok : Option String) (payload : RawPayload) (r : WebhookResponse)
    (h : (jiraWebhook cfg env now st tok qtok payload).1 = .resp r) :
    isProcessedIn (jiraWebhook cfg env now st tok qtok payload).2.1
      (fingerprintOf payload) = true := by
  unfold jiraWebhook at h ⊢
  cases ha : authOk cfg tok qtok with
  | false =>
    rw [ha] at h
    simp at h
  | true =>
    cases hc : configOk cfg with
    | false =>
      rw [ha, hc] at h
      simp at h
    | true =>
      rw [ha, hc] at h
      simp only [Bool.not_true, Bool.false_eq_true, if_false] at h ⊢
      exact handleEvent_resp_processed cfg env now st payload r h

/-! ## Store invariants (for the Link-immutability claim) -/

theorem getLink_proj_eq (cfg : Config) (st : Store)
    (hwf : ∀ e ∈ st.links, e.2.gitlab_project_id = cfg.GITLAB_PROJECT_ID)
    (k gp : String) (iid : Int) (ss : String)
    (h : getLink st k = some (gp, iid, ss)) : gp = cfg.GITLAB_PROJECT_ID := by
  unfold getLink at h
  cases hf : st.links.find? (fun r => r.1 = k) with
  | none =>
    rw [hf] at h
    exact Option.noConfusion h
  | some r =>
    rw [hf] at h
    injection h with h'
    have hmem := List.mem_of_find?_eq_some hf
    have := hwf r hmem
    rw [← this]
    exact congrArg (fun t => t.1) h'.symm

theorem getLink_none_any (st : Store) (k : String) (h : getLink st k = none) :
    st.links.any (fun r => r.1 = k) = false := by
  unfold getLink at h
  cases hf : st.links.find? (fun r => r.1 = k) with
  | none =>
    cases ha : st.links.any (fun r => r.1 = k) with
    | false => rfl
    | true =>
      obtain ⟨x, hx, hp⟩ := List.any_eq_true.mp ha
      rw [List.find?_eq_none] at hf
      exact absurd hp (by simpa using hf x hx)
  | some r =>
    rw [hf] at h
    exact Option.noConfusion h

theorem upsertLink_wf (cfg : Config) (st : Store) (j : String) (iid : Int) (ss now : String)
    (hwf : ∀ e ∈ st.links, e.2.gitlab_project_id = cfg.GITLAB_PROJECT_ID) :
    ∀ e ∈ (upsertLink cfg st j iid ss now).links,
      e.2.gitlab_project_id = cfg.GITLAB_PROJECT_ID := by
  unfold upsertLink
  by_cases h : st.links.any (fun r => r.1 = j) = true
  · rw [if_pos h]
    intro e he
    simp only at he
    rw [List.mem_map] at he
    obtain ⟨r, hr, hre⟩ := he
    by_cases hj : r.1 = j
    · rw [if_pos hj] at hre
      rw [← hre]
    · rw [if_neg hj] at hre
      rw [← hre]
      exact hwf r hr
  · rw [if_neg h]
    intro e he
    simp only at he
    rcases List.mem_append.mp he with he' | he'
    · exact hwf e he'
    · rcases List.mem_cons.mp he' with rfl | he''
      · rfl
      · simp at he''

theorem map_fst_replace (j : String) (row : LinkRow) (l : List (String × LinkRow)) :
    ((l.map fun r => if r.1 = j then (j, row) else r).map Prod.fst) = l.map Prod.fst := by
  rw [List.map_map]
  apply List.map_congr_left
  intro r _
  by_cases hj : r.1 = j
  · simp only [Function.comp_apply, if_pos hj]
    exact hj.symm
  · simp only [Function.comp_apply, if_neg hj]

theorem upsertLink_nodup (cfg : Config) (st : Store) (j : String) (iid : Int) (ss now : String)
    (hnd : (st.links.map Prod.fst).Nodup) :
    ((upsertLink cfg st j iid ss now).links.map Prod.fst).Nodup := by
  unfold upsertLink
  by_cases h : st.links.any (fun r => r.1 = j) = true
  · rw [if_pos h]
    simp only
    rw [map_fst_replace]
    exact hnd
  · rw [if_neg h]
    simp only
    rw [List.map_append]
    rw [List.nodup_append]
    refine ⟨hnd, by simp, ?_⟩
    intro a ha ha'
    have haj : a = j := by simpa using ha'
    rw [List.mem_map] at ha
    obtain ⟨r, hr, hre⟩ := ha
    rw [Bool.not_eq_true] at h
    have hcon : st.links.any (fun r => r.1 = j) = true :=
      List.any_eq_true.mpr ⟨r, hr, by rw [show r.1 = a from hre, haj]; simp⟩
    rw [h] at hcon
    exact Bool.noConfusion hcon

/-! ## Small membership facts used by the claims -/

theorem pyIn_self (m : String) : pyIn m m = true := by
  have := pyIn_append_self "" m
  simpa using this

theorem scopeLabel_mem_labelsMerge (cfg : Config) (ls : List RItem) (status : String)
    (sc : Bool) : scopeLabelOf cfg sc ∈ labelsMerge cfg ls status sc := by
  unfold labelsMerge
  rw [mem_dedupF]
  simp only [labelsMergeRaw]
  exact List.mem_append_right _ (List.mem_cons_self _ _)

theorem cleanLabels_filter_isStr (l : List RItem) :
    cleanLabels (l.filter RItem.isStr) = cleanLabels l := by
  induction l with
  | nil => rfl
  | cons a t ih =>
    cases a with
    | str s =>
      rw [List.filter_cons]
      simp only [RItem.isStr, if_true]
      unfold cleanLabels at *
      rw [List.filterMap_cons, List.filterMap_cons]
      cases h : cleanLabel (RItem.str s) with
      | none => exact ih
      | some b => rw [ih]
    | nonstr =>
      rw [List.filter_cons]
      simp only [RItem.isStr]
      rw [if_neg (by simp)]
      unfold cleanLabels at *
      rw [List.filterMap_cons]
      simp only [cleanLabel]
      exact ih

/-! ## Claims -/

/-- C6: description composition appends the fixed marker line
`"<prefix> <sourceKey>"` only when the description does not already contain
it (returning the description unchanged when it does, and otherwise ending
in the marker, with the bare marker used for blank descriptions), and it is
idempotent: applying it twice equals applying it once. -/
theorem C6_description_composition (cfg : Config) (jira_key jira_desc : String) :
    (pyIn (cfg.SYNC_MARKER_PREF ++ " " ++ jira_key) jira_desc = true →
      buildDescription cfg jira_key jira_desc = jira_desc) ∧
    (pyIn (cfg.SYNC_MARKER_PREF ++ " " ++ jira_key) jira_desc = false →
      (buildDescription cfg jira_key jira_desc =
          jira_desc ++ "\n\n---\n" ++ (cfg.SYNC_MARKER_PREF ++ " " ++ jira_key) ∨
        buildDescription cfg jira_key jira_desc = cfg.SYNC_MARKER_PREF ++ " " ++ jira_key)) ∧
    buildDescription cfg jira_key (buildDescription cfg jira_key jira_desc) =
      buildDescription cfg jira_key jira_desc := by
  refine ⟨?_, ?_, ?_⟩
  · intro h
    simp [buildDescription, h]
  · intro h
    by_cases hs : pyStrip jira_desc ≠ ""
    · exact Or.inl (by simp [buildDescription, h, hs])
    · exact Or.inr (by simp [buildDescription, h, hs])
  · by_cases h : pyIn (cfg.SYNC_MARKER_PREF ++ " " ++ jira_key) jira_desc = true
    · simp [buildDescription, h]
    · rw [Bool.not_eq_true] at h
      by_cases hs : pyStrip jira_desc ≠ ""
      · have h1 : buildDescription cfg jira_key jira_desc =
            jira_desc ++ "\n\n---\n" ++ (cfg.SYNC_MARKER_PREF ++ " " ++ jira_key) := by
          simp [buildDescription, h, hs]
        rw [h1]
        simp [buildDescription, pyIn_append_self]
      · have h1 : buildDescription cfg jira_key jira_desc =
            cfg.SYNC_MARKER_PREF ++ " " ++ jira_key := by
          simp [buildDescription, h, hs]
        rw [h1]
        simp [buildDescription, pyIn_self]

theorem C6_description_composition_witness :
    buildDescription defaultCfg "PROJ-1" (buildDescription defaultCfg "PROJ-1" "hello") =
      buildDescription defaultCfg "PROJ-1" "hello" :=
  (C6_description_composition defaultCfg "PROJ-1" "hello").2.2

/-- C8: the normalizer's labels are the empty list whenever the raw labels
field is absent or not list-shaped; and non-string elements have no effect
on (are dropped from) the merged label output. -/
theorem C8_labels_normalization (p : RawPayload) (cfg : Config) (l : List RItem)
    (status : String) (sc : Bool)
    (h : ((p.issue.getD emptyIssue).fields.getD emptyFields).labels = LabelsField.absent ∨
         ((p.issue.getD emptyIssue).fields.getD emptyFields).labels = LabelsField.notList) :
    (jiraExtract p).labels = [] ∧
      labelsMerge cfg (l.filter RItem.isStr) status sc = labelsMerge cfg l status sc := by
  constructor
  · rcases h with h | h <;> simp [jiraExtract, h]
  · unfold labelsMerge labelsMergeRaw
    rw [cleanLabels_filter_isStr]

theorem C8_labels_normalization_witness :
    (jiraExtract payloadNotList).labels = [] ∧
      labelsMerge defaultCfg ([RItem.str "x", RItem.nonstr].filter RItem.isStr) "Done" true =
        labelsMerge defaultCfg [RItem.str "x", RItem.nonstr] "Done" true :=
  C8_labels_normalization payloadNotList defaultCfg [RItem.str "x", RItem.nonstr]
    "Done" true (Or.inr (by decide))

/-- C10: with an empty configured shared secret the webhook performs no
credential check (the outcome is independent of both tokens and never the
401 rejection); with a non-empty secret, a request whose header token and
query token both differ from the secret is rejected with 401 and neither
store nor target system is touched. -/
theorem C10_shared_secret_check (cfg : Config) (env : GitlabEnv) (now : String)
    (st : Store) (payload : RawPayload) (tok qtok tok2 qtok2 : Option String) :
    (cfg.JIRA_SHARED_SECRET = "" →
      jiraWebhook cfg env now st tok qtok payload =
        jiraWebhook cfg env now st tok2 qtok2 payload ∧
      (jiraWebhook cfg env now st tok qtok payload).1 ≠ .err 401) ∧
    (cfg.JIRA_SHARED_SECRET ≠ "" → tok ≠ some cfg.JIRA_SHARED_SECRET →
      qtok ≠ some cfg.JIRA_SHARED_SECRET →
      jiraWebhook cfg env now st tok qtok payload = (.err 401, st, [])) := by
  constructor
  · intro h
    have hauth : ∀ t q : Option String, authOk cfg t q = true := fun t q => by
      simp [authOk, h]
    constructor
    · unfold jiraWebhook
      rw [hauth tok qtok, hauth tok2 qtok2]
    · unfold jiraWebhook
      rw [hauth tok qtok]
      simp only [Bool.not_true, Bool.false_eq_true, if_false]
      cases hc : configOk cfg with
      | false => simp
      | true =>
        simp only [Bool.not_true, Bool.false_eq_true, if_false]
        rcases handleEvent_out_shape cfg env now st payload with ⟨r, hr⟩ | hr <;>
          rw [hr] <;> simp
  · intro h ht hq
    have hauth : authOk cfg tok qtok = false := by
      simp [authOk, h, ht, hq]
    unfold jiraWebhook
    rw [hauth]
    rfl

theorem C10_shared_secret_check_witness :
    (jiraWebhook authCfg sampleEnv "now" emptyStore (some "wrong") none payloadA =
      (.err 401, emptyStore, [])) :=
  (C10_shared_secret_check authCfg sampleEnv "now" emptyStore payloadA
      (some "wrong") none none none).2
    (by decide) (by decide) (by decide)

/-- C9: on the creation path the single create call carries `state_event =
"close"` exactly when the computed transition is close (non-empty status in
the configured done set); it never carries `"reopen"`: otherwise no
transition token is sent. -/
theorem C9_create_transition (cfg : Config) (env : GitlabEnv) (now : String)
    (st : Store) (tok qtok : Option String) (payload : RawPayload) (k : String)
    (hauth : authOk cfg tok qtok = true) (hcfg : configOk cfg = true)
    (hfp : isProcessedIn st (fingerprintOf payload) = false)
    (hkey : pyOptKey (jiraExtract payload).key = some k)
    (hlink : getLink st k = none)
    (hsc : isInScope cfg (jiraExtract payload).assignee = true) :
    (jiraWebhook cfg env now st tok qtok payload).2.2 =
      [.create (createFormOf cfg (jiraExtract payload) k)] ∧
    ((createFormOf cfg (jiraExtract payload) k).state_event = some "close" ↔
      ((jiraExtract payload).status ≠ "" ∧
        (jiraExtract payload).status ∈ cfg.DONE_STATUSES)) ∧
    (createFormOf cfg (jiraExtract payload) k).state_event ≠ some "reopen" ∧
    ((createFormOf cfg (jiraExtract payload) k).state_event = some "close" ∨
      (createFormOf cfg (jiraExtract payload) k).state_event = none) := by
  have hse : (createFormOf cfg (jiraExtract payload) k).state_event =
      (if stateEventFromStatus cfg (jiraExtract payload).status = some "close"
        then some "close" else none) := by
    unfold createFormOf createForm
    by_cases h : stateEventFromStatus cfg (jiraExtract payload).status = some "close"
    · rw [if_pos h]
      simp
    · rw [if_neg h]
  have hclose : stateEventFromStatus cfg (jiraExtract payload).status = some "close" ↔
      ((jiraExtract payload).status ≠ "" ∧
        (jiraExtract payload).status ∈ cfg.DONE_STATUSES) := by
    unfold stateEventFromStatus
    by_cases h0 : (jiraExtract payload).status = ""
    · rw [if_pos h0]
      constructor
      · intro hcon
        exact Option.noConfusion hcon
      · rintro ⟨hne, -⟩
        exact absurd h0 hne
    · rw [if_neg h0]
      by_cases hd : cfg.DONE_STATUSES.contains (jiraExtract payload).status = true
      · rw [if_pos hd]
        have hmem : (jiraExtract payload).status ∈ cfg.DONE_STATUSES := by
          rw [List.contains_eq_any_beq] at hd
          obtain ⟨x, hx, hxe⟩ := List.any_eq_true.mp hd
          rw [beq_iff_eq] at hxe
          exact hxe ▸ hx
        exact ⟨fun _ => ⟨h0, hmem⟩, fun _ => rfl⟩
      · rw [if_neg hd]
        constructor
        · intro hcon
          injection hcon with hcon'
          exact absurd hcon' (by decide)
        · rintro ⟨-, hmem⟩
          exact absurd (by
            rw [List.contains_eq_any_beq]
            exact List.any_eq_true.mpr ⟨_, hmem, by simp⟩) hd
    
  refine ⟨?_, ?_, ?_, ?_⟩
  · rw [jiraWebhook_eq_handleEvent cfg env now st tok qtok payload hauth hcfg]
    cases hcr : env.createResult (createFormOf cfg (jiraExtract payload) k) with
    | none =>
      rw [handleEvent_create_fail cfg env now st payload k hfp hkey hlink hsc hcr]
    | some iid =>
      rw [handleEvent_created cfg env now st payload k iid hfp hkey hlink hsc hcr]
  · rw [hse]
    by_cases h : stateEventFromStatus cfg (jiraExtract payload).status = some "close"
    · rw [if_pos h]
      exact ⟨fun _ => hclose.mp h, fun _ => rfl⟩
    · rw [if_neg h]
      constructor
      · intro hcon
        exact absurd hcon (by simp)
      · intro hmem
        exact absurd (hclose.mpr hmem) h
  · rw [hse]
    by_cases h : stateEventFromStatus cfg (jiraExtract payload).status = some "close"
    · rw [if_pos h]
      intro hcon
      injection hcon with hcon'
      exact absurd hcon' (by decide)
    · rw [if_neg h]
      simp
  · rw [hse]
    by_cases h : stateEventFromStatus cfg (jiraExtract payload).status = some "close"
    · rw [if_pos h]
      exact Or.inl rfl
    · rw [if_neg h]
      exact Or.inr rfl

theorem C9_create_transition_witness :
    (jiraWebhook defaultCfg sampleEnv "now" emptyStore none none payloadA).2.2 =
      [.create (createFormOf defaultCfg (jiraExtract payloadA) "PROJ-1")] ∧
    ((createFormOf defaultCfg (jiraExtract payloadA) "PROJ-1").state_event = some "close" ↔
      ((jiraExtract payloadA).status ≠ "" ∧
        (jiraExtract payloadA).status ∈ defaultCfg.DONE_STATUSES)) ∧
    (createFormOf defaultCfg (jiraExtract payloadA) "PROJ-1").state_event ≠ some "reopen" ∧
    ((createFormOf defaultCfg (jiraExtract payloadA) "PROJ-1").state_event = some "close" ∨
      (createFormOf defaultCfg (jiraExtract payloadA) "PROJ-1").state_event = none) :=
  C9_create_transition defaultCfg sampleEnv "now" emptyStore none none payloadA "PROJ-1"
    (by decide) (by decide) (by decide) (by decide) (by decide) (by decide)

/-- C5: for every source label list, status string and scope flag, the merged
label list is duplicate-free (a sublist of the pre-dedup pipeline, so
first-occurrence order is preserved), contains exactly one status-prefixed
label (the one for `status`, or `unknown` when empty — `statusLabelOf`) and
exactly one scope label (the marker matching the flag; the opposite marker
is absent), and the composition is a fixed point: re-applying it to its own
output with the same status and flag returns the output unchanged. Stated
under sanity hypotheses on the configured label constants, all true of the
defaults. -/
theorem C5_labels_merge_properties (cfg : Config) (ls : List RItem) (status : String)
    (sc : Bool) (h : LabelCfgOk cfg) :
    (labelsMerge cfg ls status sc).Nodup ∧
    List.Sublist (labelsMerge cfg ls status sc) (labelsMergeRaw cfg ls status sc) ∧
    (labelsMerge cfg ls status sc).countP
      (fun l => pyStartsWith l cfg.LABEL_PREFIX_STATUS) = 1 ∧
    statusLabelOf cfg status ∈ labelsMerge cfg ls status sc ∧
    (labelsMerge cfg ls status sc).countP
      (fun l => l = cfg.LABEL_OUT_OF_SCOPE || l = cfg.LABEL_IN_SCOPE) = 1 ∧
    scopeLabelOf cfg sc ∈ labelsMerge cfg ls status sc ∧
    scopeLabelOf cfg (!sc) ∉ labelsMerge cfg ls status sc ∧
    labelsMerge cfg ((labelsMerge cfg ls status sc).map RItem.str) status sc =
      labelsMerge cfg ls status sc := by
  have hdec := labelsMerge_decomp cfg h ls status sc
  refine ⟨labelsMerge_nodup cfg h ls status sc, dedupF_sublist _, ?_, ?_, ?_, ?_, ?_,
    labelsMerge_fixed cfg h ls status sc⟩
  · rw [hdec, List.countP_append]
    have h0 : (dedupF (labelsBase cfg ls)).countP
        (fun l => pyStartsWith l cfg.LABEL_PREFIX_STATUS) = 0 := by
      rw [List.countP_eq_zero]
      intro a ha
      rw [(dedupF_labelsBase_mem cfg ls a ha).2.1]
      simp
    rw [h0]
    simp [List.countP_cons, statusLabel_startsWith cfg status,
          scopeLabel_not_startsWith cfg h sc]
  · rw [hdec]
    exact List.mem_append_right _ (List.mem_cons_self _ _)
  · rw [hdec, List.countP_append]
    have h0 : (dedupF (labelsBase cfg ls)).countP
        (fun l => l = cfg.LABEL_OUT_OF_SCOPE || l = cfg.LABEL_IN_SCOPE) = 0 := by
      rw [List.countP_eq_zero]
      intro a ha
      have hb := dedupF_labelsBase_mem cfg ls a ha
      simp [hb.2.2.1, hb.2.2.2]
    rw [h0]
    cases sc <;>
      simp [List.countP_cons, scopeLabelOf, statusLabel_ne_out cfg h status,
            statusLabel_ne_in cfg h status]
  · rw [hdec]
    exact List.mem_append_right _ (List.mem_cons_of_mem _ (List.mem_cons_self _ _))
  · rw [hdec]
    intro hm
    rcases List.mem_append.mp hm with hm' | hm'
    · have hb := dedupF_labelsBase_mem cfg ls _ hm'
      rcases scopeLabel_cases cfg (!sc) with hc | hc
      · exact hb.2.2.2 hc
      · exact hb.2.2.1 hc
    · rcases List.mem_cons.mp hm' with heq | hm''
      · exact scopeLabel_ne_statusLabel cfg h (!sc) status heq
      · rcases List.mem_cons.mp hm'' with heq | hm'''
        · cases sc
          · exact h.in_ne_out heq
          · exact h.in_ne_out heq.symm
        · simp at hm'''

theorem C5_labels_merge_properties_witness :
    (labelsMerge defaultCfg [.str " a ", .nonstr, .str "jira:status:old", .str "sync:in-scope"]
        "Done" true).Nodup ∧
    List.Sublist
      (labelsMerge defaultCfg [.str " a ", .nonstr, .str "jira:status:old", .str "sync:in-scope"]
        "Done" true)
      (labelsMergeRaw defaultCfg
        [.str " a ", .nonstr, .str "jira:status:old", .str "sync:in-scope"] "Done" true) ∧
    (labelsMerge defaultCfg [.str " a ", .nonstr, .str "jira:status:old", .str "sync:in-scope"]
        "Done" true).countP
      (fun l => pyStartsWith l defaultCfg.LABEL_PREFIX_STATUS) = 1 ∧
    statusLabelOf defaultCfg "Done" ∈
      labelsMerge defaultCfg [.str " a ", .nonstr, .str "jira:status:old", .str "sync:in-scope"]
        "Done" true ∧
    (labelsMerge defaultCfg [.str " a ", .nonstr, .str "jira:status:old", .str "sync:in-scope"]
        "Done" true).countP
      (fun l => l = defaultCfg.LABEL_OUT_OF_SCOPE || l = defaultCfg.LABEL_IN_SCOPE) = 1 ∧
    scopeLabelOf defaultCfg true ∈
      labelsMerge defaultCfg [.str " a ", .nonstr, .str "jira:status:old", .str "sync:in-scope"]
        "Done" true ∧
    scopeLabelOf defaultCfg (!true) ∉
      labelsMerge defaultCfg [.str " a ", .nonstr, .str "jira:status:old", .str "sync:in-scope"]
        "Done" true ∧
    labelsMerge defaultCfg
      ((labelsMerge defaultCfg
          [.str " a ", .nonstr, .str "jira:status:old", .str "sync:in-scope"]
          "Done" true).map RItem.str) "Done" true =
      labelsMerge defaultCfg [.str " a ", .nonstr, .str "jira:status:old", .str "sync:in-scope"]
        "Done" true :=
  C5_labels_merge_properties defaultCfg
    [.str " a ", .nonstr, .str "jira:status:old", .str "sync:in-scope"] "Done" true
    ⟨by decide, by decide, by decide, by decide, by decide, by decide, by decide,
     by decide, by decide⟩

/-- C1: for a processed (non-dedup) event with a non-empty source key, the
orchestrator follows the four-row state table. Row 1: no Link and out of
scope — skip response, no target call, still no Link. Row 2: no Link and in
scope — one create call, then a Link persisted with syncState `in-scope`
and the returned issue id. Row 3: Link present and in scope — one update
call addressed to the stored target id, Link re-persisted `in-scope` with
the same id. Row 4: Link present and out of scope — one update call whose
assignee field is the explicit clear (empty set) and whose label list
carries the out-of-scope marker, Link set to `out-of-scope`, same id. -/
theorem C1_state_table (cfg : Config) (env : GitlabEnv) (now : String) (st : Store)
    (tok qtok : Option String) (payload : RawPayload) (k gp : String) (iid : Int)
    (ss : String)
    (hauth : authOk cfg tok qtok = true) (hcfg : configOk cfg = true)
    (hfp : isProcessedIn st (fingerprintOf payload) = false)
    (hkey : pyOptKey (jiraExtract payload).key = some k) :
    (getLink st k = none → isInScope cfg (jiraExtract payload).assignee = false →
      jiraWebhook cfg env now st tok qtok payload =
        (.resp { ok := true, action := "skip_create_out_of_scope", jira_key := some k },
         markProcessed st (fingerprintOf payload) now, []) ∧
      getLink (jiraWebhook cfg env now st tok qtok payload).2.1 k = none) ∧
    (getLink st k = none → isInScope cfg (jiraExtract payload).assignee = true →
      env.createResult (createFormOf cfg (jiraExtract payload) k) = some iid →
      jiraWebhook cfg env now st tok qtok payload =
        (.resp { ok := true, action := "created", jira_key := some k, gitlab_iid := some iid },
         markProcessed (upsertLink cfg st k iid "in-scope" now) (fingerprintOf payload) now,
         [.create (createFormOf cfg (jiraExtract payload) k)]) ∧
      getLink (jiraWebhook cfg env now st tok qtok payload).2.1 k =
        some (cfg.GITLAB_PROJECT_ID, iid, "in-scope")) ∧
    (getLink st k = some (gp, iid, ss) →
      isInScope cfg (jiraExtract payload).assignee = true →
      env.updateOk iid (updateFormOf cfg (jiraExtract payload) k) = true →
      jiraWebhook cfg env now st tok qtok payload =
        (.resp { ok := true, action := "updated", jira_key := some k, gitlab_iid := some iid },
         markProcessed (upsertLink cfg st k iid "in-scope" now) (fingerprintOf payload) now,
         [.update iid (updateFormOf cfg (jiraExtract payload) k)]) ∧
      getLink (jiraWebhook cfg env now st tok qtok payload).2.1 k =
        some (cfg.GITLAB_PROJECT_ID, iid, "in-scope")) ∧
    (getLink st k = some (gp, iid, ss) →
      isInScope cfg (jiraExtract payload).assignee = false →
      env.updateOk iid (updateFormOf cfg (jiraExtract payload) k) = true →
      jiraWebhook cfg env now st tok qtok payload =
        (.resp { ok := true, action := "updated", jira_key := some k, gitlab_iid := some iid },
         markProcessed (upsertLink cfg st k iid "out-of-scope" now) (fingerprintOf payload) now,
         [.update iid (updateFormOf cfg (jiraExtract payload) k)]) ∧
      (updateFormOf cfg (jiraExtract payload) k).assignee_ids = .clearAll ∧
      cfg.LABEL_OUT_OF_SCOPE ∈
        labelsMerge cfg (jiraExtract payload).labels (jiraExtract payload).status false ∧
      getLink (jiraWebhook cfg env now st tok qtok payload).2.1 k =
        some (cfg.GITLAB_PROJECT_ID, iid, "out-of-scope")) := by
  rw [jiraWebhook_eq_handleEvent cfg env now st tok qtok payload hauth hcfg]
  refine ⟨?_, ?_, ?_, ?_⟩
  · intro hlink hsc
    have he := handleEvent_skip_oos cfg env now st payload k hfp hkey hlink hsc
    rw [he]
    exact ⟨rfl, by rw [getLink_markProcessed]; exact hlink⟩
  · intro hlink hsc hcr
    have he := handleEvent_created cfg env now st payload k iid hfp hkey hlink hsc hcr
    rw [he]
    refine ⟨rfl, ?_⟩
    rw [getLink_markProcessed]
    exact getLink_upsertLink_self cfg st k iid "in-scope" now
  · intro hlink hsc hup
    have he := handleEvent_updated cfg env now st payload k gp iid ss hfp hkey hlink hup
    rw [hsc] at he
    rw [he]
    refine ⟨by rw [if_pos rfl], ?_⟩
    rw [getLink_markProcessed]
    simp only [if_pos]
    exact getLink_upsertLink_self cfg st k iid "in-scope" now
  · intro hlink hsc hup
    have he := handleEvent_updated cfg env now st payload k gp iid ss hfp hkey hlink hup
    rw [hsc] at he
    rw [he]
    refine ⟨rfl, ?_, ?_, ?_⟩
    · unfold updateFormOf updateForm
      rw [hsc]
      simp [mapAssigneeToGitlabIds]
    · have := scopeLabel_mem_labelsMerge cfg (jiraExtract payload).labels
        (jiraExtract payload).status false
      exact this
    · rw [getLink_markProcessed]
      exact getLink_upsertLink_self cfg st k iid "out-of-scope" now

theorem C1_state_table_witness :
    (getLink emptyStore "PROJ-1" = none →
      isInScope defaultCfg (jiraExtract payloadA).assignee = false →
      jiraWebhook defaultCfg sampleEnv "now" emptyStore none none payloadA =
        (.resp { ok := true, action := "skip_create_out_of_scope", jira_key := some "PROJ-1" },
         markProcessed emptyStore (fingerprintOf payloadA) "now", []) ∧
      getLink (jiraWebhook defaultCfg sampleEnv "now" emptyStore none none payloadA).2.1
        "PROJ-1" = none) ∧
    (getLink emptyStore "PROJ-1" = none →
      isInScope defaultCfg (jiraExtract payloadA).assignee = true →
      sampleEnv.createResult (createFormOf defaultCfg (jiraExtract payloadA) "PROJ-1") =
        some 7 →
      jiraWebhook defaultCfg sampleEnv "now" emptyStore none none payloadA =
        (.resp { ok := true, action := "created", jira_key := some "PROJ-1",
                 gitlab_iid := some 7 },
         markProcessed (upsertLink defaultCfg emptyStore "PROJ-1" 7 "in-scope" "now")
           (fingerprintOf payloadA) "now",
         [.create (createFormOf defaultCfg (jiraExtract payloadA) "PROJ-1")]) ∧
      getLink (jiraWebhook defaultCfg sampleEnv "now" emptyStore none none payloadA).2.1
        "PROJ-1" = some (defaultCfg.GITLAB_PROJECT_ID, 7, "in-scope")) ∧
    (getLink emptyStore "PROJ-1" = some ("42", 7, "in-scope") →
      isInScope defaultCfg (jiraExtract payloadA).assignee = true →
      sampleEnv.updateOk 7 (updateFormOf defaultCfg (jiraExtract payloadA) "PROJ-1") = true →
      jiraWebhook defaultCfg sampleEnv "now" emptyStore none none payloadA =
        (.resp { ok := true, action := "updated", jira_key := some "PROJ-1",
                 gitlab_iid := some 7 },
         markProcessed (upsertLink defaultCfg emptyStore "PROJ-1" 7 "in-scope" "now")
           (fingerprintOf payloadA) "now",
         [.update 7 (updateFormOf defaultCfg (jiraExtract payloadA) "PROJ-1")]) ∧
      getLink (jiraWebhook defaultCfg sampleEnv "now" emptyStore none none payloadA).2.1
        "PROJ-1" = some (defaultCfg.GITLAB_PROJECT_ID, 7, "in-scope")) ∧
    (getLink emptyStore "PROJ-1" = some ("42", 7, "in-scope") →
      isInScope defaultCfg (jiraExtract payloadA).assignee = false →
      sampleEnv.updateOk 7 (updateFormOf defaultCfg (jiraExtract payloadA) "PROJ-1") = true →
      jiraWebhook defaultCfg sampleEnv "now" emptyStore none none payloadA =
        (.resp { ok := true, action := "updated", jira_key := some "PROJ-1",
                 gitlab_iid := some 7 },
         markProcessed (upsertLink defaultCfg emptyStore "PROJ-1" 7 "out-of-scope" "now")
           (fingerprintOf payloadA) "now",
         [.update 7 (updateFormOf defaultCfg (jiraExtract payloadA) "PROJ-1")]) ∧
      (updateFormOf defaultCfg (jiraExtract payloadA) "PROJ-1").assignee_ids = .clearAll ∧
      defaultCfg.LABEL_OUT_OF_SCOPE ∈
        labelsMerge defaultCfg (jiraExtract payloadA).labels (jiraExtract payloadA).status
          false ∧
      getLink (jiraWebhook defaultCfg sampleEnv "now" emptyStore none none payloadA).2.1
        "PROJ-1" = some (defaultCfg.GITLAB_PROJECT_ID, 7, "out-of-scope")) :=
  C1_state_table defaultCfg sampleEnv "now" emptyStore none none payloadA "PROJ-1" "42" 7
    "in-scope" (by decide) (by decide) (by decide) (by decide)

/-- C2: when the target-system call fails (a ≥300 response to the create or
update), the whole request aborts with a 502 error and the store is returned
unchanged — the fingerprint is not marked and no Link is written. -/
theorem C2_upstream_failure (cfg : Config) (env : GitlabEnv) (now : String) (st : Store)
    (tok qtok : Option String) (payload : RawPayload) (k gp : String) (iid : Int)
    (ss : String)
    (hauth : authOk cfg tok qtok = true) (hcfg : configOk cfg = true)
    (hfp : isProcessedIn st (fingerprintOf payload) = false)
    (hkey : pyOptKey (jiraExtract payload).key = some k) :
    (getLink st k = none → isInScope cfg (jiraExtract payload).assignee = true →
      env.createResult (createFormOf cfg (jiraExtract payload) k) = none →
      jiraWebhook cfg env now st tok qtok payload =
        (.err 502, st, [.create (createFormOf cfg (jiraExtract payload) k)])) ∧
    (getLink st k = some (gp, iid, ss) →
      env.updateOk iid (updateFormOf cfg (jiraExtract payload) k) = false →
      jiraWebhook cfg env now st tok qtok payload =
        (.err 502, st, [.update iid (updateFormOf cfg (jiraExtract payload) k)])) := by
  rw [jiraWebhook_eq_handleEvent cfg env now st tok qtok payload hauth hcfg]
  constructor
  · intro hlink hsc hcr
    exact handleEvent_create_fail cfg env now st payload k hfp hkey hlink hsc hcr
  · intro hlink hup
    exact handleEvent_update_fail cfg env now st payload k gp iid ss hfp hkey hlink hup

theorem C2_upstream_failure_witness :
    (getLink linkedStore "PROJ-1" = none →
      isInScope defaultCfg (jiraExtract payloadA).assignee = true →
      failEnv.createResult (createFormOf defaultCfg (jiraExtract payloadA) "PROJ-1") = none →
      jiraWebhook defaultCfg failEnv "now" linkedStore none none payloadA =
        (.err 502, linkedStore,
         [.create (createFormOf defaultCfg (jiraExtract payloadA) "PROJ-1")])) ∧
    (getLink linkedStore "PROJ-1" = some ("42", 7, "in-scope") →
      failEnv.updateOk 7 (updateFormOf defaultCfg (jiraExtract payloadA) "PROJ-1") = false →
      jiraWebhook defaultCfg failEnv "now" linkedStore none none payloadA =
        (.err 502, linkedStore,
         [.update 7 (updateFormOf defaultCfg (jiraExtract payloadA) "PROJ-1")])) :=
  C2_upstream_failure defaultCfg failEnv "now" linkedStore none none payloadA "PROJ-1" "42" 7
    "in-scope" (by decide) (by decide) (by decide) (by decide)

/-- C3: after a fully processed delivery, a second delivery whose payload
yields the same fingerprint returns the `dedup` outcome, performs zero
target-system calls and leaves the store untouched. -/
theorem C3_dedup_second_delivery (cfg : Config) (env env2 : GitlabEnv) (now now2 : String)
    (st : Store) (tok qtok tok2 qtok2 : Option String) (payload payload2 : RawPayload)
    (r : WebhookResponse)
    (hrun : (jiraWebhook cfg env now st tok qtok payload).1 = .resp r)
    (hfp2 : fingerprintOf payload2 = fingerprintOf payload)
    (hauth2 : authOk cfg tok2 qtok2 = true) (hcfg : configOk cfg = true) :
    jiraWebhook cfg env2 now2 (jiraWebhook cfg env now st tok qtok payload).2.1
        tok2 qtok2 payload2 =
      (.resp { ok := true, action := "dedup" },
       (jiraWebhook cfg env now st tok qtok payload).2.1, []) := by
  rw [jiraWebhook_eq_handleEvent cfg env2 now2 _ tok2 qtok2 payload2 hauth2 hcfg]
  apply handleEvent_dedup
  rw [hfp2]
  exact jiraWebhook_resp_processed cfg env now st tok qtok payload r hrun

theorem C3_dedup_second_delivery_witness :
    jiraWebhook defaultCfg sampleEnv "now2"
        (jiraWebhook defaultCfg sampleEnv "now" emptyStore none none payloadA).2.1
        none none payloadA =
      (.resp { ok := true, action := "dedup" },
       (jiraWebhook defaultCfg sampleEnv "now" emptyStore none none payloadA).2.1, []) :=
  C3_dedup_second_delivery defaultCfg sampleEnv sampleEnv "now" "now2" emptyStore
    none none none none payloadA payloadA
    { ok := true, action := "created", jira_key := some "PROJ-1", gitlab_iid := some 7 }
    (by decide) (by decide) (by decide) (by decide)

/-- C4: every successful non-dedup handling marks the event's fingerprint
processed exactly once (its row count in the processed table becomes 1), and
any later delivery with the same fingerprint issues zero target-system
calls. -/
theorem C4_mark_processed_once (cfg : Config) (env env2 : GitlabEnv) (now now2 : String)
    (st : Store) (tok qtok tok2 qtok2 : Option String) (payload payload2 : RawPayload)
    (r : WebhookResponse)
    (hrun : (jiraWebhook cfg env now st tok qtok payload).1 = .resp r)
    (hnd : r.action ≠ "dedup")
    (hfp2 : fingerprintOf payload2 = fingerprintOf payload) :
    ((jiraWebhook cfg env now st tok qtok payload).2.1).processed.countP
        (fun e => e.1 = fingerprintOf payload) = 1 ∧
    (jiraWebhook cfg env2 now2 (jiraWebhook cfg env now st tok qtok payload).2.1
        tok2 qtok2 payload2).2.2 = [] := by
  constructor
  · cases ha : authOk cfg tok qtok with
    | false =>
      unfold jiraWebhook at hrun
      rw [ha] at hrun
      simp at hrun
    | true =>
      cases hc : configOk cfg with
      | false =>
        unfold jiraWebhook at hrun
        rw [ha, hc] at hrun
        simp at hrun
      | true =>
        rw [jiraWebhook_eq_handleEvent cfg env now st tok qtok payload ha hc] at hrun ⊢
        rcases handleEvent_shape cfg env now st payload with
          ⟨hfp, he⟩ | ⟨hfp, _, he⟩ | ⟨k, hfp, _, _, _, he⟩ | ⟨k, iid, hfp, _, _, _, _, he⟩ |
          ⟨k, hfp, _, _, _, _, he⟩ | ⟨k, gp, iid, ss, hfp, _, _, _, he⟩ |
          ⟨k, gp, iid, ss, hfp, _, _, _, he⟩
        · rw [he] at hrun
          injection hrun with h'
          exact absurd (by rw [← h']) hnd
        · rw [he]
          exact processed_markProcessed_count st _ now hfp
        · rw [he]
          exact processed_markProcessed_count st _ now hfp
        · rw [he]
          exact processed_markProcessed_count _ _ now
            (by rw [isProcessedIn_upsertLink]; exact hfp)
        · rw [he] at hrun
          simp at hrun
        · rw [he]
          exact processed_markProcessed_count _ _ now
            (by rw [isProcessedIn_upsertLink]; exact hfp)
        · rw [he] at hrun
          simp at hrun
  · have hp := jiraWebhook_resp_processed cfg env now st tok qtok payload r hrun
    have hp2 : isProcessedIn (jiraWebhook cfg env now st tok qtok payload).2.1
        (fingerprintOf payload2) = true := by
      rw [hfp2]
      exact hp
    exact (jiraWebhook_processed_noop cfg env2 now2 _ tok2 qtok2 payload2 hp2).2

theorem C4_mark_processed_once_witness :
    ((jiraWebhook defaultCfg sampleEnv "now" emptyStore none none payloadA).2.1).processed.countP
        (fun e => e.1 = fingerprintOf payloadA) = 1 ∧
    (jiraWebhook defaultCfg failEnv "now2"
        (jiraWebhook defaultCfg sampleEnv "now" emptyStore none none payloadA).2.1
        none none payloadA).2.2 = [] :=
  C4_mark_processed_once defaultCfg sampleEnv failEnv "now" "now2" emptyStore
    none none none none payloadA payloadA
    { ok := true, action := "created", jira_key := some "PROJ-1", gitlab_iid := some 7 }
    (by decide) (by decide) (by decide)

/-- The wrapper either rejects (store unchanged) or delegates to the body. -/
theorem jiraWebhook_store_cases (cfg : Config) (env : GitlabEnv) (now : String)
    (st : Store) (tok qtok : Option String) (payload : RawPayload) :
    (jiraWebhook cfg env now st tok qtok payload).2.1 = st ∨
      (jiraWebhook cfg env now st tok qtok payload).2.1 =
        (handleEvent cfg env now st payload).2.1 := by
  unfold jiraWebhook
  cases ha : authOk cfg tok qtok with
  | false =>
    left
    simp
  | true =>
    cases hc : configOk cfg with
    | false =>
      left
      simp
    | true =>
      right
      simp

/-- C7: once a Link exists for a source key its target issue id (and target
project) are never changed by any later delivery: after any run, the key
still maps to the same `(project, iid)` with only the sync state possibly
different; keys stay unique and all rows keep the configured project id.
Stated for stores whose rows were written by this core (project id equal to
the configured one, unique keys). -/
theorem C7_link_immutability (cfg : Config) (env : GitlabEnv) (now : String) (st : Store)
    (tok qtok : Option String) (payload : RawPayload) (k gp : String) (iid : Int)
    (ss : String)
    (hwf : ∀ e ∈ st.links, e.2.gitlab_project_id = cfg.GITLAB_PROJECT_ID)
    (hnd : (st.links.map Prod.fst).Nodup)
    (hlink : getLink st k = some (gp, iid, ss)) :
    (∃ ss', getLink (jiraWebhook cfg env now st tok qtok payload).2.1 k =
        some (gp, iid, ss')) ∧
    (((jiraWebhook cfg env now st tok qtok payload).2.1).links.map Prod.fst).Nodup ∧
    (∀ e ∈ ((jiraWebhook cfg env now st tok qtok payload).2.1).links,
        e.2.gitlab_project_id = cfg.GITLAB_PROJECT_ID) := by
  have hgp : gp = cfg.GITLAB_PROJECT_ID := getLink_proj_eq cfg st hwf k gp iid ss hlink
  rcases jiraWebhook_store_cases cfg env now st tok qtok payload with hst | hst
  · rw [hst]
    exact ⟨⟨ss, hlink⟩, hnd, hwf⟩
  · rw [hst]
    rcases handleEvent_shape cfg env now st payload with
      ⟨_, he⟩ | ⟨_, _, he⟩ | ⟨j, _, _, _, _, he⟩ | ⟨j, iidc, _, _, hlinkj, _, _, he⟩ |
      ⟨j, _, _, _, _, _, he⟩ | ⟨j, gpj, iidj, ssj, _, _, hlinkj, _, he⟩ |
      ⟨j, gpj, iidj, ssj, _, _, _, _, he⟩
    · rw [he]
      exact ⟨⟨ss, hlink⟩, hnd, hwf⟩
    · rw [he]
      refine ⟨⟨ss, ?_⟩, ?_, ?_⟩
      · show getLink (markProcessed st (fingerprintOf payload) now) k = some (gp, iid, ss)
        rw [getLink_markProcessed]
        exact hlink
      · show ((markProcessed st (fingerprintOf payload) now).links.map Prod.fst).Nodup
        rw [links_markProcessed]
        exact hnd
      · show ∀ e ∈ (markProcessed st (fingerprintOf payload) now).links,
            e.2.gitlab_project_id = cfg.GITLAB_PROJECT_ID
        rw [links_markProcessed]
        exact hwf
    · rw [he]
      refine ⟨⟨ss, ?_⟩, ?_, ?_⟩
      · show getLink (markProcessed st (fingerprintOf payload) now) k = some (gp, iid, ss)
        rw [getLink_markProcessed]
        exact hlink
      · show ((markProcessed st (fingerprintOf payload) now).links.map Prod.fst).Nodup
        rw [links_markProcessed]
        exact hnd
      · show ∀ e ∈ (markProcessed st (fingerprintOf payload) now).links,
            e.2.gitlab_project_id = cfg.GITLAB_PROJECT_ID
        rw [links_markProcessed]
        exact hwf
    · rw [he]
      have hkj : k ≠ j := by
        intro hh
        rw [hh, hlinkj] at hlink
        exact Option.noConfusion hlink
      refine ⟨⟨ss, ?_⟩, ?_, ?_⟩
      · show getLink
            (markProcessed (upsertLink cfg st j iidc "in-scope" now)
              (fingerprintOf payload) now) k = some (gp, iid, ss)
        rw [getLink_markProcessed, getLink_upsertLink_ne cfg st j iidc "in-scope" now k hkj]
        exact hlink
      · show ((markProcessed (upsertLink cfg st j iidc "in-scope" now)
              (fingerprintOf payload) now).links.map Prod.fst).Nodup
        rw [links_markProcessed]
        exact upsertLink_nodup cfg st j iidc "in-scope" now hnd
      · show ∀ e ∈ (markProcessed (upsertLink cfg st j iidc "in-scope" now)
              (fingerprintOf payload) now).links,
            e.2.gitlab_project_id = cfg.GITLAB_PROJECT_ID
        rw [links_markProcessed]
        exact upsertLink_wf cfg st j iidc "in-scope" now hwf
    · rw [he]
      exact ⟨⟨ss, hlink⟩, hnd, hwf⟩
    · rw [he]
      by_cases hkj : k = j
      · subst hkj
        rw [hlink] at hlinkj
        simp only [Option.some.injEq, Prod.mk.injEq] at hlinkj
        obtain ⟨hgp2, hiid2, _⟩ := hlinkj
        refine ⟨⟨(if isInScope cfg (jiraExtract payload).assignee
              then "in-scope" else "out-of-scope"), ?_⟩, ?_, ?_⟩
        · show getLink
              (markProcessed
                (upsertLink cfg st k iidj
                  (if isInScope cfg (jiraExtract payload).assignee
                    then "in-scope" else "out-of-scope") now)
                (fingerprintOf payload) now) k =
            some (gp, iid,
              (if isInScope cfg (jiraExtract payload).assignee
                then "in-scope" else "out-of-scope"))
          rw [getLink_markProcessed, getLink_upsertLink_self, hgp, hiid2]
        · show ((markProcessed
                (upsertLink cfg st k iidj
                  (if isInScope cfg (jiraExtract payload).assignee
                    then "in-scope" else "out-of-scope") now)
                (fingerprintOf payload) now).links.map Prod.fst).Nodup
          rw [links_markProcessed]
          exact upsertLink_nodup cfg st k iidj _ now hnd
        · show ∀ e ∈ (markProcessed
                (upsertLink cfg st k iidj
                  (if isInScope cfg (jiraExtract payload).assignee
                    then "in-scope" else "out-of-scope") now)
                (fingerprintOf payload) now).links,
              e.2.gitlab_project_id = cfg.GITLAB_PROJECT_ID
          rw [links_markProcessed]
          exact upsertLink_wf cfg st k iidj _ now hwf
      · refine ⟨⟨ss, ?_⟩, ?_, ?_⟩
        · show getLink
              (markProcessed
                (upsertLink cfg st j iidj
                  (if isInScope cfg (jiraExtract payload).assignee
                    then "in-scope" else "out-of-scope") now)
                (fingerprintOf payload) now) k = some (gp, iid, ss)
          rw [getLink_markProcessed, getLink_upsertLink_ne cfg st j iidj _ now k hkj]
          exact hlink
        · show ((markProcessed
                (upsertLink cfg st j iidj
                  (if isInScope cfg (jiraExtract payload).assignee
                    then "in-scope" else "out-of-scope") now)
                (fingerprintOf payload) now).links.map Prod.fst).Nodup
          rw [links_markProcessed]
          exact upsertLink_nodup cfg st j iidj _ now hnd
        · show ∀ e ∈ (markProcessed
                (upsertLink cfg st j iidj
                  (if isInScope cfg (jiraExtract payload).assignee
                    then "in-scope" else "out-of-scope") now)
                (fingerprintOf payload) now).links,
              e.2.gitlab_project_id = cfg.GITLAB_PROJECT_ID
          rw [links_markProcessed]
          exact upsertLink_wf cfg st j iidj _ now hwf
    · rw [he]
      exact ⟨⟨ss, hlink⟩, hnd, hwf⟩

theorem C7_link_immutability_witness :
    (∃ ss', getLink (jiraWebhook defaultCfg sampleEnv "now" linkedStore none none
        payloadA).2.1 "PROJ-1" = some ("42", 7, ss')) ∧
    (((jiraWebhook defaultCfg sampleEnv "now" linkedStore none none
        payloadA).2.1).links.map Prod.fst).Nodup ∧
    (∀ e ∈ ((jiraWebhook defaultCfg sampleEnv "now" linkedStore none none
        payloadA).2.1).links,
        e.2.gitlab_project_id = defaultCfg.GITLAB_PROJECT_ID) :=
  C7_link_immutability defaultCfg sampleEnv "now" linkedStore none none payloadA
    "PROJ-1" "42" 7 "in-scope" (by decide) (by decide) (by decide)
